import Mathlib

/-!
# A shallow embedding of `ioctl.c`

The program parses its options, decodes the request number with the `_IOC_*`
bit-field accessors, applies the `-d`/`-s`/`-v` overrides, allocates the
argument buffer, stages it through standard input/output and performs the
`ioctl` call between two loops over the signal table.

C values are embedded as follows.
* `int` and `long` values are `Int`; a conversion `long → int` is `long_to_int`
  (wrap to 32 bits), a conversion `int → size_t` is `to_size_t` (wrap to 64 bits).
* `void *` values are `Arg`: a raw pointer-sized value or the block returned by
  `malloc`.  The "unset" marker `(void *) -1` is the raw value `-1`.
* Everything the program does to the outside world is recorded, in order, as a
  list of `Event`s; the way a run ends is a `Status`.
* The C library and the kernel are an `Env`: the answers of `malloc`, `open`,
  `read`, `ioctl` and `sigaction` are fields of it.
-/

set_option linter.unusedVariables false

namespace Ioctl

/-! ## Machine integers -/

/-- Largest `long` (LP64). -/
def LONG_MAX : Int := 2 ^ 63 - 1

/-- Smallest `long` (LP64). -/
def LONG_MIN : Int := -(2 ^ 63)

/-- Conversion of a `long` to an `int`: the value is wrapped to 32 bits. -/
def long_to_int (x : Int) : Int := (x + 2 ^ 31) % 2 ^ 32 - 2 ^ 31

/-- Conversion of an `int` to `size_t`: the value is wrapped to 64 bits. -/
def to_size_t (x : Int) : Nat := (x % 2 ^ 64).toNat

/-! ## `strtol(nptr, NULL, 0)`

The C library function, as ISO C and glibc define it: leading white space is
skipped, a sign is accepted, the base is 16 after `0x`, 8 after `0`, else 10,
digits are consumed as long as they are valid and the rest of the string is
ignored.  `errno` is set only on overflow (`ERANGE`, with the result clamped);
when no digit is found the result is `0` and `errno` is left as it was. -/

/-- The white-space characters of the C locale. -/
def isspace (c : Char) : Bool :=
  c.toNat = 32 || (9 ≤ c.toNat && c.toNat ≤ 13)

/-- Value of a character as a digit, `36` when it is a digit in no base. -/
def digit_value (c : Char) : Nat :=
  if 48 ≤ c.toNat ∧ c.toNat ≤ 57 then c.toNat - 48
  else if 97 ≤ c.toNat ∧ c.toNat ≤ 122 then c.toNat - 87
  else if 65 ≤ c.toNat ∧ c.toNat ≤ 90 then c.toNat - 55
  else 36

/-- Accumulates the longest run of digits valid in `base`. -/
def strtol_digits (base : Nat) : List Char → Nat → Nat
  | [], acc => acc
  | c :: cs, acc =>
    if digit_value c < base then strtol_digits base cs (acc * base + digit_value c) else acc

/-- Removes an optional sign; the flag tells whether it was `-`. -/
def strtol_sign : List Char → Bool × List Char
  | [] => (false, [])
  | c :: cs => if c = '-' then (true, cs) else if c = '+' then (false, cs) else (false, c :: cs)

/-- Base detection for base argument `0`; a `0x` counts only before a hex digit. -/
def strtol_base : List Char → Nat × List Char
  | [] => (10, [])
  | c :: cs =>
    if c = '0' then
      match cs with
      | x :: d :: ds =>
        if (x = 'x' ∨ x = 'X') ∧ digit_value d < 16 then (16, d :: ds) else (8, c :: cs)
      | _ => (8, c :: cs)
    else (10, c :: cs)

/-- The result of `strtol(nptr, NULL, 0)` after `errno = 0`: the value and whether
`errno` is non-zero afterwards. -/
def strtol (nptr : String) : Int × Bool :=
  let s := nptr.toList.dropWhile isspace
  let sg := strtol_sign s
  let b := strtol_base sg.2
  match b.2 with
  | [] => (0, false)
  | c :: cs =>
    if digit_value c < b.1 then
      let m : Int := (strtol_digits b.1 (c :: cs) 0 : Nat)
      if sg.1 then (if m > 2 ^ 63 then (LONG_MIN, true) else (-m, false))
      else (if m > LONG_MAX then (LONG_MAX, true) else (m, false))
    else (0, false)

/-! ## The request-number accessors

`_IOC_DIR`, `_IOC_SIZE`, `_IOC_TYPE` and `_IOC_NR` come from the kernel header
`<asm-generic/ioctl.h>`, which is not part of the sources; the field widths are the
ones of the reference encoding. -/

/-- Modelled from the spec: width of the function-number field (`_IOC_NRBITS`), a
constant of the kernel header, 8 bits in the reference encoding. -/
def _IOC_NRBITS : Nat := 8

/-- Modelled from the spec: width of the type field (`_IOC_TYPEBITS`), a constant of
the kernel header, 8 bits in the reference encoding. -/
def _IOC_TYPEBITS : Nat := 8

/-- Modelled from the spec: width of the size field (`_IOC_SIZEBITS`), a constant of
the kernel header, 14 bits in the reference encoding. -/
def _IOC_SIZEBITS : Nat := 14

/-- Modelled from the spec: width of the direction field (`_IOC_DIRBITS`), a constant
of the kernel header, 2 bits in the reference encoding. -/
def _IOC_DIRBITS : Nat := 2

/-- Modelled from the spec: the mask `((1 << bits) - 1)` of a field of the kernel
header; this one and the three after it select the low bits of a shifted code. -/
def _IOC_NRMASK : Int := ((1 <<< _IOC_NRBITS : Nat) : Int) - 1
def _IOC_TYPEMASK : Int := ((1 <<< _IOC_TYPEBITS : Nat) : Int) - 1
def _IOC_SIZEMASK : Int := ((1 <<< _IOC_SIZEBITS : Nat) : Int) - 1
def _IOC_DIRMASK : Int := ((1 <<< _IOC_DIRBITS : Nat) : Int) - 1

/-- Modelled from the spec: the position of a field in the kernel header; from the
least significant bit up the fields are number, type, size and direction. -/
def _IOC_NRSHIFT : Nat := 0
def _IOC_TYPESHIFT : Nat := _IOC_NRSHIFT + _IOC_NRBITS
def _IOC_SIZESHIFT : Nat := _IOC_TYPESHIFT + _IOC_TYPEBITS
def _IOC_DIRSHIFT : Nat := _IOC_SIZESHIFT + _IOC_SIZEBITS

/-- Modelled from the spec: the accessor `_IOC_DIR` of the kernel header, the
direction in the top 2 bits: `(((nr) >> _IOC_DIRSHIFT) & _IOC_DIRMASK)`, applied to
an `int` (arithmetic shift, mask in two's complement). -/
def _IOC_DIR (nr : Int) : Int := Int.land (Int.shiftRight nr _IOC_DIRSHIFT) _IOC_DIRMASK

/-- Modelled from the spec: the accessor `_IOC_TYPE` of the kernel header, the 8-bit
type: `(((nr) >> _IOC_TYPESHIFT) & _IOC_TYPEMASK)`, applied to an `int`. -/
def _IOC_TYPE (nr : Int) : Int := Int.land (Int.shiftRight nr _IOC_TYPESHIFT) _IOC_TYPEMASK

/-- Modelled from the spec: the accessor `_IOC_NR` of the kernel header, the 8-bit
function number: `(((nr) >> _IOC_NRSHIFT) & _IOC_NRMASK)`, applied to an `int`. -/
def _IOC_NR (nr : Int) : Int := Int.land (Int.shiftRight nr _IOC_NRSHIFT) _IOC_NRMASK

/-- Modelled from the spec: the accessor `_IOC_SIZE` of the kernel header, the size
field: `(((nr) >> _IOC_SIZESHIFT) & _IOC_SIZEMASK)`, applied to an `int`. -/
def _IOC_SIZE (nr : Int) : Int := Int.land (Int.shiftRight nr _IOC_SIZESHIFT) _IOC_SIZEMASK

/-! ## Values, events and the environment -/

/-- A `void *` of the program: a raw pointer-sized value (`NULL` is `ptr 0`, the
"unset" marker is `ptr (-1)`) or the block obtained from `malloc`, with its bytes. -/
inductive Arg where
  | ptr (v : Int)
  | buf (bytes : List Nat)
  deriving DecidableEq, Repr

/-- The null pointer `NULL`. -/
def NULL : Arg := Arg.ptr 0

/-- What a run does to the outside world.  The text of a message stands for the
formatted line; its numeric fields are left out. -/
inductive Event where
  | stderr (text : String)
  | stdout (text : String)
  | malloc (size : Nat)
  | read (fd : Nat) (count : Nat)
  | open_ (file : String) (rdwr : Bool)
  | ioctl (fd : Nat) (nr : Int) (arg : Arg)
  | write (fd : Nat) (arg : Arg) (count : Nat)
  deriving DecidableEq, Repr

/-- How a run ends: `exit` with a status, or undefined behaviour (an access through
`NULL` or outside an array). -/
inductive Status where
  | exit (code : Nat)
  | undefined
  deriving DecidableEq, Repr

/-- A run: the events in order and the way it ended. -/
structure Run where
  trace : List Event
  status : Status
  deriving DecidableEq, Repr

/-- The value of `sa_handler`/`sa_sigaction` of a signal: the two special values,
the address of this program's `sighandler`, or the address of another function. -/
inductive Handler where
  | SIG_DFL
  | SIG_IGN
  | sighandler
  | other (addr : Nat)
  deriving DecidableEq, Repr

/-- The C library and the kernel as seen by one run. -/
structure Env where
  /-- whether `malloc` grants a block of that many bytes -/
  malloc_ok : Nat → Bool
  /-- the bytes found in a block fresh from `malloc` -/
  heap_garbage : Nat → Nat
  /-- the bytes standard input can deliver -/
  stdin : List Nat
  /-- the call `open(file, O_RDWR)` when the flag is true, `open(file, O_RDONLY)` otherwise:
  the descriptor or `errno` -/
  open_ : String → Bool → Except Nat Nat
  /-- the return value of `ioctl(fd, nr, arg)` and the bytes of the block afterwards -/
  ioctl : Nat → Int → Arg → Int × Arg
  /-- the signal table when `doit` starts -/
  handlers : Nat → Handler
  /-- signal numbers `sigaction` accepts -/
  sig_valid : Nat → Bool
  /-- signals whose action cannot be changed (`SIGKILL`, `SIGSTOP`) -/
  sig_kernel_only : Nat → Bool
  /-- the number of signals, `NSIG` of `<signal.h>` -/
  NSIG : Nat
  /-- the indeterminate first content of the local `oldact` -/
  oldact0 : Handler

deriving instance DecidableEq for Except

/-- The value of `EPERM`. -/
def EPERM : Nat := 1

/-! ## `usage`, `error` and `display_parms` -/

/-- The number of entries `ARRAY_SIZE(A)`. -/
def ARRAY_SIZE {α : Type} (A : List α) : Nat := A.length

/-- The table of direction names. -/
def dir_str : List String := ["NONE", "R", "W", "RW"]

/-- The status `EXIT_FAILURE`. -/
def EXIT_FAILURE : Nat := 1

/-- Function `usage(out, code)`: prints the usage text on `out` and exits with `code`. -/
def usage (to_stdout : Bool) (code : Nat) : Run :=
  ⟨[if to_stdout then Event.stdout "Usage" else Event.stderr "Usage"], Status.exit code⟩

/-- Function `error(1, errnum, msg)` of `<error.h>`: prints the message on standard error and
exits with status 1. -/
def error (msg : String) : Run := ⟨[Event.stderr msg], Status.exit 1⟩

/-- Function `display_parms`: one line on standard error.  Without a forced value the line
holds `dir_str[dir]`; `none` when that index lies outside the table. -/
def display_parms (label : String) (ioctl_nr dir size force_value : Int) :
    Option (List Event) :=
  if force_value = -1 then
    if 0 ≤ dir then
      match dir_str.get? dir.toNat with
      | some name => some [Event.stderr (label ++ ": direction=" ++ name)]
      | none => none
    else none
  else some [Event.stderr (label ++ ": arg value")]

/-! ## The option loop of `main` -/

/-- One answer of `getopt(argc, argv, "d:s:v:qh")`: the option character with its
`optarg`; `unknown` is the answer `?`. -/
inductive Opt where
  | d (optarg : String)
  | s (optarg : String)
  | v (optarg : String)
  | q
  | h
  | unknown
  deriving DecidableEq, Repr

/-- The locals of `main` the options set, with their initial values. -/
structure Locals where
  force_dir : Int := -1
  force_size : Int := -1
  force_value : Int := -1
  quiet : Bool := false
  deriving DecidableEq, Repr

/-- The loop `for (i = 0; i < ARRAY_SIZE(dir_str); i++) if (!strcmp(optarg, dir_str[i]))
force_dir = i;` started with `force_dir = -1`. -/
def dir_lookup (optarg : String) : Int :=
  (List.range (ARRAY_SIZE dir_str)).foldl
    (fun force_dir i => if dir_str.get? i = some optarg then (i : Int) else force_dir) (-1)

/-- The branch `case 'd'`. -/
def case_d (optarg : String) (l : Locals) : Except Run Locals :=
  let r := strtol optarg
  if r.2 then
    let force_dir := dir_lookup optarg
    if force_dir = -1 ∨ to_size_t force_dir > ARRAY_SIZE dir_str then
      Except.error (error "Invalid direction")
    else Except.ok { l with force_dir := force_dir }
  else Except.ok { l with force_dir := long_to_int r.1 }

/-- The branch `case 's'`. -/
def case_s (optarg : String) (l : Locals) : Except Run Locals :=
  let r := strtol optarg
  if r.2 then Except.error (usage false EXIT_FAILURE)
  else Except.ok { l with force_size := long_to_int r.1 }

/-- The branch `case 'v'`: the `long` is kept whole in the pointer. -/
def case_v (optarg : String) (l : Locals) : Except Run Locals :=
  let r := strtol optarg
  if r.2 then Except.error (usage false EXIT_FAILURE)
  else Except.ok { l with force_value := r.1 }

/-- The body of the `switch`. -/
def option_step (l : Locals) : Opt → Except Run Locals
  | Opt.d optarg => case_d optarg l
  | Opt.s optarg => case_s optarg l
  | Opt.v optarg => case_v optarg l
  | Opt.q => Except.ok { l with quiet := true }
  | Opt.h => Except.error (usage true 0)
  | Opt.unknown => Except.error (usage false EXIT_FAILURE)

/-- The `while ((opt = getopt(...)) != -1)` loop over the answers of `getopt`. -/
def option_loop : List Opt → Locals → Except Run Locals
  | [], l => Except.ok l
  | o :: os, l =>
    match option_step l o with
    | Except.ok l1 => option_loop os l1
    | Except.error r => Except.error r

/-! ## `doit` -/

/-- The call `sigaction(signum, act, oldact)` with one of the two pointers `NULL`:
`none` is the failure `EINVAL`, which writes nothing; otherwise the new table and the
old action of the signal.  A query needs a signal number the system accepts, a change
in addition a signal whose action can be changed. -/
def sigaction (env : Env) (table : Nat → Handler) (signum : Nat) (act : Option Handler) :
    Option ((Nat → Handler) × Handler) :=
  if env.sig_valid signum = false ∨ (act.isSome = true ∧ env.sig_kernel_only signum = true) then
    none
  else
    match act with
    | none => some (table, table signum)
    | some a => some (Function.update table signum a, table signum)

/-- The signal table together with the local `oldact`. -/
structure SigLoop where
  table : Nat → Handler
  oldact : Handler

/-- The call `sigaction(i, NULL, &oldact)`: on failure `oldact` keeps what it held. -/
def sig_query (env : Env) (st : SigLoop) (i : Nat) : SigLoop :=
  match sigaction env st.table i none with
  | some r => { st with oldact := r.2 }
  | none => st

/-- The call `sigaction(i, &act, NULL)` with `act` holding the handler `a`. -/
def sig_set (env : Env) (st : SigLoop) (i : Nat) (a : Handler) : SigLoop :=
  match sigaction env st.table i (some a) with
  | some r => { st with table := r.1 }
  | none => st

/-- Body of the first loop: `if (oldact.sa_handler == SIG_DFL) sigaction(i, &act, NULL)`
with `act.sa_sigaction = sighandler`. -/
def install_step (env : Env) (st : SigLoop) (i : Nat) : SigLoop :=
  let st1 := sig_query env st i
  if st1.oldact = Handler.SIG_DFL then sig_set env st1 i Handler.sighandler else st1

/-- Body of the second loop: `if (oldact.sa_sigaction == sighandler) sigaction(i, &act,
NULL)` with `act.sa_handler = NULL`. -/
def restore_step (env : Env) (st : SigLoop) (i : Nat) : SigLoop :=
  let st1 := sig_query env st i
  if st1.oldact = Handler.sighandler then sig_set env st1 i Handler.SIG_DFL else st1

/-- The loop `for (i = 0; i < NSIG; i++)` before the call. -/
def install_loop (env : Env) (st : SigLoop) : SigLoop :=
  (List.range env.NSIG).foldl (install_step env) st

/-- The loop `for (i = 0; i < NSIG; i++)` after the call. -/
def restore_loop (env : Env) (st : SigLoop) : SigLoop :=
  (List.range env.NSIG).foldl (restore_step env) st

/-- What `doit` leaves when it returns: its events, the argument after the call and
the signal table. -/
structure Done where
  trace : List Event
  buf : Arg
  handlers : Nat → Handler

/-- The two `open` calls of `doit`: the events and the descriptor or `errno`. -/
def doit_open (env : Env) (file : String) : List Event × Except Nat Nat :=
  match env.open_ file true with
  | Except.ok fd => ([Event.open_ file true], Except.ok fd)
  | Except.error e =>
    if e = EPERM then ([Event.open_ file true, Event.open_ file false], env.open_ file false)
    else ([Event.open_ file true], Except.error e)

/-- Function `doit(file, ioctl_nr, buf)`.  The call itself is taken not to touch the
signal table. -/
def doit (env : Env) (file : String) (ioctl_nr : Int) (buf : Arg) : Except Run Done :=
  match doit_open env file with
  | (t, Except.error _) => Except.error ⟨t ++ (error "Cannot open").trace, Status.exit 1⟩
  | (t, Except.ok fd) =>
    let st1 := install_loop env ⟨env.handlers, env.oldact0⟩
    let r := env.ioctl fd ioctl_nr buf
    let st2 := restore_loop env st1
    Except.ok ⟨t ++ [Event.ioctl fd ioctl_nr buf, Event.stderr "Returned"], r.2, st2.table⟩

/-! ## `main` -/

/-- The call `memset(block, c, n)` on a block. -/
def memset (block : List Nat) (c : Nat) (n : Nat) : List Nat :=
  List.replicate (min n block.length) c ++ block.drop n

/-- The call `malloc(n)`: a block of `n` bytes of unspecified content, or `none` for `NULL`. -/
def malloc (env : Env) (n : Nat) : Option (List Nat) :=
  if env.malloc_ok n then some ((List.range n).map env.heap_garbage) else none

/-- The call `read(0, buf, count)`: the bytes standard input delivers replace the head of the
block; nothing is stored through a raw pointer. -/
def read (env : Env) (buf : Arg) (count : Nat) : Arg :=
  match buf with
  | Arg.buf bytes =>
    let data := env.stdin.take (min count bytes.length)
    Arg.buf (data ++ bytes.drop data.length)
  | Arg.ptr v => Arg.ptr v

/-- The direction and size after the `-d` and `-s` overrides (the two `if`s that
follow the compatibility checks). -/
def apply_overrides (l : Locals) (dir size : Int) : Int × Int :=
  (if l.force_dir ≠ -1 then l.force_dir else dir,
   if l.force_size ≠ -1 then l.force_size else size)

/-- The values `main` goes on with. -/
structure Resolved where
  buf : Arg
  dir : Int
  size : Int
  deriving DecidableEq, Repr

/-- The `if (force_value != (void *) -1) ... else if (!size) ... else ...` statement:
the events and the resolved values, `none` when `memset` is handed `NULL`. -/
def allocate (env : Env) (force_value dir size : Int) : List Event × Option Resolved :=
  if force_value ≠ -1 then ([], some ⟨Arg.ptr force_value, 0, 0⟩)
  else if size = 0 then ([], some ⟨NULL, dir, size⟩)
  else
    match malloc env (to_size_t size) with
    | some block =>
      ([Event.malloc (to_size_t size)], some ⟨Arg.buf (memset block 0 (to_size_t size)), dir, size⟩)
    | none => ([Event.malloc (to_size_t size)], none)

/-- The text of the warning. -/
def warning : Event := Event.stderr "Warning: Direction is NONE but buffer size is not 0"

/-- The end of `main`: the `read`, `doit`, the `write` and `return 0`; `t` holds the
events so far. -/
def finish (env : Env) (file : String) (ioctl_nr : Int) (r : Resolved) (t : List Event) : Run :=
  let input := r.dir = 1 ∨ r.dir = 3
  let t3 := if input then [Event.read 0 (to_size_t r.size)] else []
  let buf1 := if input then read env r.buf (to_size_t r.size) else r.buf
  match doit env file ioctl_nr buf1 with
  | Except.error e => ⟨t ++ t3 ++ e.trace, e.status⟩
  | Except.ok d =>
    let t4 := if r.dir = 2 ∨ r.dir = 3 then [Event.write 1 d.buf (to_size_t r.size)] else []
    ⟨t ++ t3 ++ d.trace ++ t4, Status.exit 0⟩

/-- From the warning to `return 0`. -/
def stage_and_call (env : Env) (l : Locals) (file : String) (ioctl_nr : Int) (r : Resolved) :
    Run :=
  let t1 := if r.dir = 0 ∧ r.size ≠ 0 then [warning] else []
  match (if l.quiet then some []
         else display_parms "Used values" ioctl_nr r.dir r.size l.force_value) with
  | none => ⟨t1, Status.undefined⟩
  | some t2 => finish env file ioctl_nr r (t1 ++ t2)

/-- From the compatibility checks on; `t0` holds the events so far. -/
def resolve_and_run (env : Env) (l : Locals) (file : String) (ioctl_nr dir size : Int)
    (t0 : List Event) : Run :=
  if l.force_value ≠ -1 ∧ l.force_size ≠ -1 then
    ⟨t0 ++ (error "Options -v and -s are incompatible").trace, Status.exit 1⟩
  else if l.force_value ≠ -1 ∧ l.force_dir ≠ -1 then
    ⟨t0 ++ (error "Options -v and -d are incompatible").trace, Status.exit 1⟩
  else
    let ds := apply_overrides l dir size
    match allocate env l.force_value ds.1 ds.2 with
    | (t1, none) => ⟨t0 ++ t1, Status.undefined⟩
    | (t1, some r) =>
      let run := stage_and_call env l file ioctl_nr r
      ⟨t0 ++ t1 ++ run.trace, run.status⟩

/-- The part of `main` after the option loop, for the two positional arguments. -/
def main_body (env : Env) (l : Locals) (file nr_arg : String) : Run :=
  let ioctl_nr := long_to_int (strtol nr_arg).1
  let dir := _IOC_DIR ioctl_nr
  let size := _IOC_SIZE ioctl_nr
  match (if l.quiet then some []
         else display_parms "Decoded values" ioctl_nr dir size (-1)) with
  | none => ⟨[], Status.undefined⟩
  | some t0 => resolve_and_run env l file ioctl_nr dir size t0

/-- Function `main`: `opts` are the answers of `getopt` in order, `args` the arguments left
from `argv[optind]` on. -/
def main (env : Env) (opts : List Opt) (args : List String) : Run :=
  match option_loop opts {} with
  | Except.error r => r
  | Except.ok l =>
    match args with
    | [file, nr_arg] => main_body env l file nr_arg
    | _ => usage false EXIT_FAILURE

/-! ## Classifying events -/

/-- The event is a line on standard error. -/
def Event.is_stderr : Event → Bool
  | Event.stderr _ => true
  | _ => false

/-- The event is a `read` call. -/
def Event.is_read : Event → Bool
  | Event.read _ _ => true
  | _ => false

/-- The event is a `write` call. -/
def Event.is_write : Event → Bool
  | Event.write _ _ _ => true
  | _ => false

/-- The event is the `ioctl` call. -/
def Event.is_ioctl : Event → Bool
  | Event.ioctl _ _ _ => true
  | _ => false

/-- The run ended at one of the two compatibility checks: status 1, the message of
the check is the last event, and nothing but lines on standard error happened. -/
def Run.rejected (r : Run) : Prop :=
  r.status = Status.exit 1 ∧
  (r.trace.getLast? = some (Event.stderr "Options -v and -s are incompatible") ∨
   r.trace.getLast? = some (Event.stderr "Options -v and -d are incompatible")) ∧
  r.trace.all Event.is_stderr = true

instance (r : Run) : Decidable r.rejected := by
  unfold Run.rejected; infer_instance

/-- A concrete environment for evaluating runs: blocks up to 4096 bytes are granted,
standard input holds ten bytes, every path opens as descriptor 3, the call returns 0
and leaves its argument alone, signals 1 to 64 exist, all at their default action. -/
def sample_env : Env where
  malloc_ok := fun n => decide (n ≤ 4096)
  heap_garbage := fun i => i % 256
  stdin := [1, 2, 3, 4, 5, 6, 7, 8, 9, 10]
  open_ := fun _ _ => Except.ok 3
  ioctl := fun _ _ a => (0, a)
  handlers := fun _ => Handler.SIG_DFL
  sig_valid := fun i => decide (1 ≤ i ∧ i ≤ 64)
  sig_kernel_only := fun i => decide (i = 9 ∨ i = 19)
  NSIG := 65
  oldact0 := Handler.SIG_DFL

/-- The argument `doit` receives: the block after the `read`, when there is one. -/
def call_arg (env : Env) (r : Resolved) : Arg :=
  if r.dir = 1 ∨ r.dir = 3 then read env r.buf (to_size_t r.size) else r.buf

/-- The common shape of the two loop bodies: query, compare with `test`, set `target`. -/
def sig_step (env : Env) (test target : Handler) (st : SigLoop) (i : Nat) : SigLoop :=
  let st1 := sig_query env st i
  if st1.oldact = test then sig_set env st1 i target else st1

/-- An environment for evaluating the loops: signal 1 is ignored, signal 2 runs a
handler of the user at address 4096, the others have the default action. -/
def signal_env : Env :=
  { sample_env with
    handlers := fun i =>
      if i = 1 then Handler.SIG_IGN else if i = 2 then Handler.other 4096 else Handler.SIG_DFL
    oldact0 := Handler.other 7 }

/-! ## Bit fields -/

theorem ldiff_low_mask (k m : Nat) : Nat.ldiff (2 ^ k - 1) m = 2 ^ k - (m % 2 ^ k + 1) := by
  apply Nat.eq_of_testBit_eq
  intro i
  have h : m % 2 ^ k < 2 ^ k := Nat.mod_lt _ (by positivity)
  rw [Nat.testBit_ldiff, Nat.testBit_two_pow_sub_one, Nat.testBit_two_pow_sub_succ h,
    Nat.testBit_mod_two_pow]
  by_cases hi : i < k <;> simp [hi]

/-- Masking an integer in two's complement with `2 ^ k - 1` keeps its residue
modulo `2 ^ k`. -/
theorem land_low_mask (x : Int) (k : Nat) : Int.land x (2 ^ k - 1) = x % 2 ^ k := by
  have hk : ((2 : Int) ^ k - 1) = (((2 ^ k - 1 : Nat)) : Int) := by
    have : 1 ≤ 2 ^ k := Nat.one_le_two_pow
    push_cast [Nat.cast_sub this]
    rfl
  rw [hk]
  cases x with
  | ofNat m =>
    show ((m &&& (2 ^ k - 1) : Nat) : Int) = _
    rw [Nat.and_pow_two_sub_one_eq_mod]
    simp
  | negSucc m =>
    show ((Nat.ldiff (2 ^ k - 1) m : Nat) : Int) = _
    rw [ldiff_low_mask]
    have h : m % 2 ^ k < 2 ^ k := Nat.mod_lt _ (by positivity)
    rw [Int.negSucc_emod _ (by positivity)]
    push_cast [Nat.cast_sub h]
    omega

theorem shiftRight_div (nr : Int) (k : Nat) : Int.shiftRight nr k = nr / 2 ^ k := by
  have h := Int.shiftRight_eq_div_pow nr k
  rw [show nr >>> k = Int.shiftRight nr k from rfl] at h
  rw [h]
  push_cast
  rfl

theorem IOC_DIR_eq (nr : Int) : _IOC_DIR nr = nr / 2 ^ 30 % 2 ^ 2 := by
  have hm : _IOC_DIRMASK = 2 ^ 2 - 1 := by decide
  have hs : _IOC_DIRSHIFT = 30 := by decide
  unfold _IOC_DIR
  rw [hm, hs, land_low_mask, shiftRight_div]

theorem IOC_SIZE_eq (nr : Int) : _IOC_SIZE nr = nr / 2 ^ 16 % 2 ^ 14 := by
  have hm : _IOC_SIZEMASK = 2 ^ 14 - 1 := by decide
  have hs : _IOC_SIZESHIFT = 16 := by decide
  unfold _IOC_SIZE
  rw [hm, hs, land_low_mask, shiftRight_div]

theorem IOC_TYPE_eq (nr : Int) : _IOC_TYPE nr = nr / 2 ^ 8 % 2 ^ 8 := by
  have hm : _IOC_TYPEMASK = 2 ^ 8 - 1 := by decide
  have hs : _IOC_TYPESHIFT = 8 := by decide
  unfold _IOC_TYPE
  rw [hm, hs, land_low_mask, shiftRight_div]

theorem IOC_NR_eq (nr : Int) : _IOC_NR nr = nr % 2 ^ 8 := by
  have hm : _IOC_NRMASK = 2 ^ 8 - 1 := by decide
  have hs : _IOC_NRSHIFT = 0 := by decide
  unfold _IOC_NR
  rw [hm, hs, land_low_mask, shiftRight_div]
  simp

theorem IOC_DIR_range (nr : Int) : 0 ≤ _IOC_DIR nr ∧ _IOC_DIR nr ≤ 3 := by
  rw [IOC_DIR_eq]; omega

theorem IOC_SIZE_range (nr : Int) : 0 ≤ _IOC_SIZE nr ∧ _IOC_SIZE nr < 2 ^ 14 := by
  rw [IOC_SIZE_eq]; omega


/-! ## What `display_parms` prints -/

theorem dir_str_get (k : Nat) (name : String) (h : dir_str.get? k = some name) :
    k < 4 ∧ (name = "NONE" ∨ name = "R" ∨ name = "W" ∨ name = "RW") := by
  match k, h with
  | 0, h => simp [dir_str] at h; simp [← h]
  | 1, h => simp [dir_str] at h; simp [← h]
  | 2, h => simp [dir_str] at h; simp [← h]
  | 3, h => simp [dir_str] at h; simp [← h]
  | (n + 4), h => simp [dir_str] at h

/-- The two calls of `display_parms` print lines on standard error only, none of
which is the warning. -/
theorem display_parms_events (label : String) (ioctl_nr dir size fv : Int) (t : List Event)
    (hl : label = "Decoded values" ∨ label = "Used values")
    (h : display_parms label ioctl_nr dir size fv = some t) :
    ∀ e ∈ t, e.is_stderr = true ∧ e ≠ warning := by
  unfold display_parms at h
  split at h
  · split at h
    · split at h
      · rename_i name hn
        injection h with h
        subst h
        intro e he
        simp only [List.mem_singleton] at he
        subst he
        refine ⟨rfl, ?_⟩
        rcases (dir_str_get _ _ hn).2 with h | h | h | h <;> rcases hl with hl | hl <;>
          subst h <;> subst hl <;> decide
      · cases h
    · cases h
  · injection h with h
    subst h
    intro e he
    simp only [List.mem_singleton] at he
    subst he
    refine ⟨rfl, ?_⟩
    rcases hl with hl | hl <;> subst hl <;> decide

/-- With a direction in `0..3`, or with a forced value, `display_parms` stays inside
`dir_str`. -/
theorem display_parms_some (label : String) (ioctl_nr dir size fv : Int)
    (h : fv ≠ -1 ∨ (0 ≤ dir ∧ dir ≤ 3)) :
    ∃ t, display_parms label ioctl_nr dir size fv = some t := by
  unfold display_parms
  by_cases hf : fv = -1
  · rcases h with h | ⟨h0, h3⟩
    · exact absurd hf h
    · rw [if_pos hf, if_pos h0]
      have hk : dir.toNat < 4 := by omega
      match hd : dir.toNat, hk with
      | 0, _ => exact ⟨_, rfl⟩
      | 1, _ => exact ⟨_, rfl⟩
      | 2, _ => exact ⟨_, rfl⟩
      | 3, _ => exact ⟨_, rfl⟩
  · rw [if_neg hf]
    exact ⟨_, rfl⟩

/-! ## The shape of a run -/

theorem main_eq (env : Env) (opts : List Opt) (l : Locals) (file nr_arg : String)
    (hl : option_loop opts {} = Except.ok l) :
    main env opts [file, nr_arg] = main_body env l file nr_arg := by
  simp [main, hl]

theorem main_body_eq (env : Env) (l : Locals) (file nr_arg : String) :
    ∃ t0, (∀ e ∈ t0, e.is_stderr = true ∧ e ≠ warning) ∧
      main_body env l file nr_arg =
        resolve_and_run env l file (long_to_int (strtol nr_arg).1)
          (_IOC_DIR (long_to_int (strtol nr_arg).1)) (_IOC_SIZE (long_to_int (strtol nr_arg).1)) t0 := by
  unfold main_body
  by_cases hq : l.quiet = true
  · exact ⟨[], by simp, by simp [hq]⟩
  · obtain ⟨t, ht⟩ := display_parms_some "Decoded values" (long_to_int (strtol nr_arg).1)
      (_IOC_DIR (long_to_int (strtol nr_arg).1)) (_IOC_SIZE (long_to_int (strtol nr_arg).1)) (-1)
      (Or.inr (IOC_DIR_range _))
    exact ⟨t, display_parms_events _ _ _ _ _ _ (Or.inl rfl) ht, by simp [hq, ht]⟩

theorem doit_open_events (env : Env) (file : String) :
    Event.open_ file true ∈ (doit_open env file).1 ∧
    ∀ e ∈ (doit_open env file).1, ∃ b, e = Event.open_ file b := by
  unfold doit_open
  split
  · simp
  · split <;> simp

theorem finish_eq (env : Env) (file : String) (nr : Int) (r : Resolved) (t : List Event) :
    finish env file nr r t =
      match (doit_open env file).2 with
      | Except.error _ =>
        ⟨t ++ (if r.dir = 1 ∨ r.dir = 3 then [Event.read 0 (to_size_t r.size)] else []) ++
          ((doit_open env file).1 ++ [Event.stderr "Cannot open"]), Status.exit 1⟩
      | Except.ok fd =>
        ⟨t ++ (if r.dir = 1 ∨ r.dir = 3 then [Event.read 0 (to_size_t r.size)] else []) ++
          ((doit_open env file).1 ++
            [Event.ioctl fd nr
              (if r.dir = 1 ∨ r.dir = 3 then read env r.buf (to_size_t r.size) else r.buf),
             Event.stderr "Returned"]) ++
          (if r.dir = 2 ∨ r.dir = 3 then
            [Event.write 1 (env.ioctl fd nr
              (if r.dir = 1 ∨ r.dir = 3 then read env r.buf (to_size_t r.size) else r.buf)).2
              (to_size_t r.size)] else []), Status.exit 0⟩ := by
  unfold finish doit
  rcases hd : doit_open env file with ⟨tr, res⟩
  cases res <;> simp [error]

theorem mem_finish (env : Env) (file : String) (nr : Int) (r : Resolved) (t : List Event)
    (e : Event) :
    e ∈ (finish env file nr r t).trace ↔
      e ∈ t ∨ ((r.dir = 1 ∨ r.dir = 3) ∧ e = Event.read 0 (to_size_t r.size)) ∨
      e ∈ (doit_open env file).1 ∨
      ((∃ err, (doit_open env file).2 = Except.error err) ∧ e = Event.stderr "Cannot open") ∨
      (∃ fd, (doit_open env file).2 = Except.ok fd ∧
        (e = Event.ioctl fd nr (call_arg env r) ∨ e = Event.stderr "Returned" ∨
         ((r.dir = 2 ∨ r.dir = 3) ∧
           e = Event.write 1 (env.ioctl fd nr (call_arg env r)).2 (to_size_t r.size)))) := by
  rw [finish_eq]
  unfold call_arg
  rcases hres : (doit_open env file).2 with err | fd
  · by_cases h13 : r.dir = 1 ∨ r.dir = 3 <;> simp [h13, or_assoc]
  · by_cases h13 : r.dir = 1 ∨ r.dir = 3 <;> by_cases h23 : r.dir = 2 ∨ r.dir = 3 <;>
      simp [h13, h23, or_assoc]

theorem finish_status (env : Env) (file : String) (nr : Int) (r : Resolved) (t : List Event) :
    (finish env file nr r t).status =
      match (doit_open env file).2 with
      | Except.error _ => Status.exit 1
      | Except.ok _ => Status.exit 0 := by
  rw [finish_eq]
  rcases hres : (doit_open env file).2 with err | fd <;> rfl

theorem stage_and_call_cases (env : Env) (l : Locals) (file : String) (nr : Int) (r : Resolved) :
    (stage_and_call env l file nr r =
        ⟨if r.dir = 0 ∧ r.size ≠ 0 then [warning] else [], Status.undefined⟩ ∧
      l.force_value = -1 ∧ ¬ (0 ≤ r.dir ∧ r.dir ≤ 3)) ∨
    ∃ t2, (∀ e ∈ t2, e.is_stderr = true ∧ e ≠ warning) ∧
      stage_and_call env l file nr r =
        finish env file nr r ((if r.dir = 0 ∧ r.size ≠ 0 then [warning] else []) ++ t2) := by
  unfold stage_and_call
  by_cases hq : l.quiet = true
  · right
    exact ⟨[], by simp, by simp [hq]⟩
  · rcases hdp : display_parms "Used values" nr r.dir r.size l.force_value with _ | t2
    · left
      refine ⟨by simp [hq, hdp], ?_, ?_⟩
      · by_contra hv
        obtain ⟨t, ht⟩ := display_parms_some "Used values" nr r.dir r.size l.force_value (Or.inl hv)
        rw [hdp] at ht
        cases ht
      · intro hr
        obtain ⟨t, ht⟩ := display_parms_some "Used values" nr r.dir r.size l.force_value (Or.inr hr)
        rw [hdp] at ht
        cases ht
    · right
      exact ⟨t2, display_parms_events _ _ _ _ _ _ (Or.inr rfl) hdp, by simp [hq, hdp]⟩

theorem stderr_not_call (e : Event) (h : e.is_stderr = true) :
    e.is_read = false ∧ e.is_write = false ∧ e.is_ioctl = false := by
  cases e <;> simp_all [Event.is_stderr, Event.is_read, Event.is_write, Event.is_ioctl]

/-- A list splits in one way only around its single element that satisfies `p`. -/
theorem split_unique {α : Type} (p : α → Bool) (A B pre post : List α) (x y : α)
    (hA : ∀ e ∈ A, p e = false) (hB : ∀ e ∈ B, p e = false) (hy : p y = true)
    (h : A ++ x :: B = pre ++ y :: post) : pre = A ∧ post = B := by
  induction A generalizing pre with
  | nil =>
    cases pre with
    | nil =>
      simp only [List.nil_append, List.cons.injEq] at h
      exact ⟨rfl, h.2.symm⟩
    | cons z pre1 =>
      simp only [List.nil_append, List.cons_append, List.cons.injEq] at h
      have hm : y ∈ B := by rw [h.2]; simp
      have := hB y hm
      rw [hy] at this
      cases this
  | cons a A1 ih =>
    cases pre with
    | nil =>
      simp only [List.nil_append, List.cons_append, List.cons.injEq] at h
      have := hA a (by simp)
      rw [h.1, hy] at this
      cases this
    | cons z pre1 =>
      simp only [List.cons_append, List.cons.injEq] at h
      obtain ⟨h1, h2⟩ := ih pre1 (fun e he => hA e (by simp [he])) h.2
      exact ⟨by rw [h.1, h1], h2⟩

theorem memset_fresh (env : Env) (n : Nat) :
    memset ((List.range n).map env.heap_garbage) 0 n = List.replicate n 0 := by
  simp [memset]

theorem allocate_cases (env : Env) (fv dir size : Int) :
    (fv ≠ -1 ∧ allocate env fv dir size = ([], some ⟨Arg.ptr fv, 0, 0⟩)) ∨
    (fv = -1 ∧ size = 0 ∧ allocate env fv dir size = ([], some ⟨NULL, dir, size⟩)) ∨
    (fv = -1 ∧ size ≠ 0 ∧ env.malloc_ok (to_size_t size) = true ∧
      allocate env fv dir size =
        ([Event.malloc (to_size_t size)],
         some ⟨Arg.buf (List.replicate (to_size_t size) 0), dir, size⟩)) ∨
    (fv = -1 ∧ size ≠ 0 ∧ env.malloc_ok (to_size_t size) = false ∧
      allocate env fv dir size = ([Event.malloc (to_size_t size)], none)) := by
  unfold allocate
  by_cases hv : fv = -1
  · by_cases hs : size = 0
    · right; left
      exact ⟨hv, hs, by simp [hv, hs]⟩
    · cases hm : env.malloc_ok (to_size_t size)
      · right; right; right
        exact ⟨hv, hs, rfl, by simp [hv, hs, malloc, hm]⟩
      · right; right; left
        exact ⟨hv, hs, rfl, by simp [hv, hs, malloc, hm, memset_fresh]⟩
  · left
    exact ⟨hv, by simp [hv]⟩

theorem resolve_and_run_cases (env : Env) (l : Locals) (file : String) (nr dir size : Int)
    (t0 : List Event) :
    (l.force_value ≠ -1 ∧ (l.force_size ≠ -1 ∨ l.force_dir ≠ -1) ∧
      (resolve_and_run env l file nr dir size t0 =
          ⟨t0 ++ [Event.stderr "Options -v and -s are incompatible"], Status.exit 1⟩ ∨
       resolve_and_run env l file nr dir size t0 =
          ⟨t0 ++ [Event.stderr "Options -v and -d are incompatible"], Status.exit 1⟩)) ∨
    (¬ (l.force_value ≠ -1 ∧ (l.force_size ≠ -1 ∨ l.force_dir ≠ -1)) ∧
      ∃ t1, allocate env l.force_value (apply_overrides l dir size).1
          (apply_overrides l dir size).2 = (t1, none) ∧
        resolve_and_run env l file nr dir size t0 = ⟨t0 ++ t1, Status.undefined⟩) ∨
    (¬ (l.force_value ≠ -1 ∧ (l.force_size ≠ -1 ∨ l.force_dir ≠ -1)) ∧
      ∃ t1 r, allocate env l.force_value (apply_overrides l dir size).1
          (apply_overrides l dir size).2 = (t1, some r) ∧
        resolve_and_run env l file nr dir size t0 =
          ⟨t0 ++ t1 ++ (stage_and_call env l file nr r).trace,
           (stage_and_call env l file nr r).status⟩) := by
  unfold resolve_and_run
  by_cases h1 : l.force_value ≠ -1 ∧ l.force_size ≠ -1
  · left
    exact ⟨h1.1, Or.inl h1.2, Or.inl (by simp [h1, error])⟩
  · by_cases h2 : l.force_value ≠ -1 ∧ l.force_dir ≠ -1
    · left
      exact ⟨h2.1, Or.inr h2.2, Or.inr (by rw [if_neg h1, if_pos h2]; rfl)⟩
    · right
      have hn : ¬ (l.force_value ≠ -1 ∧ (l.force_size ≠ -1 ∨ l.force_dir ≠ -1)) := by
        rintro ⟨hv, hs | hd⟩
        · exact h1 ⟨hv, hs⟩
        · exact h2 ⟨hv, hd⟩
      rw [if_neg h1, if_neg h2]
      dsimp only
      rcases ha : allocate env l.force_value (apply_overrides l dir size).1
          (apply_overrides l dir size).2 with ⟨t1, _ | r⟩
      · left
        exact ⟨hn, t1, rfl, rfl⟩
      · right
        exact ⟨hn, t1, r, rfl, rfl⟩

theorem option_loop_force_size_range (opts : List Opt) (l0 l : Locals)
    (h : option_loop opts l0 = Except.ok l)
    (h0 : -2 ^ 31 ≤ l0.force_size ∧ l0.force_size < 2 ^ 31) :
    -2 ^ 31 ≤ l.force_size ∧ l.force_size < 2 ^ 31 := by
  induction opts generalizing l0 with
  | nil =>
    simp only [option_loop] at h
    injection h with h
    subst h
    exact h0
  | cons o os ih =>
    simp only [option_loop] at h
    rcases hs : option_step l0 o with e | l1
    · rw [hs] at h
      cases h
    · rw [hs] at h
      apply ih l1 h
      cases o with
      | d optarg =>
        simp only [option_step, case_d] at hs
        split at hs
        · split at hs
          · cases hs
          · injection hs with hs; subst hs; exact h0
        · injection hs with hs; subst hs; exact h0
      | s optarg =>
        simp only [option_step, case_s] at hs
        split at hs
        · cases hs
        · injection hs with hs
          subst hs
          simp only [long_to_int]
          omega
      | v optarg =>
        simp only [option_step, case_v] at hs
        split at hs
        · cases hs
        · injection hs with hs; subst hs; exact h0
      | q =>
        simp only [option_step] at hs
        injection hs with hs; subst hs; exact h0
      | h => simp [option_step] at hs
      | unknown => simp [option_step] at hs

theorem mem_stage_warning (env : Env) (l : Locals) (file : String) (nr : Int) (r : Resolved) :
    warning ∈ (stage_and_call env l file nr r).trace ↔ (r.dir = 0 ∧ r.size ≠ 0) := by
  rcases stage_and_call_cases env l file nr r with ⟨hu, _, hdir⟩ | ⟨t2, ht2, hf⟩
  · rw [hu]
    constructor
    · intro h
      by_contra hc
      simp [hc] at h
    · intro h
      exfalso
      apply hdir
      omega
  · rw [hf, mem_finish]
    constructor
    · intro h
      rcases h with h | h | h | h | ⟨fd, _, h | h | h⟩
      · rcases List.mem_append.1 h with h | h
        · by_contra hc
          simp [hc] at h
        · exact absurd rfl (ht2 _ h).2
      · exact absurd h.2 (by simp [warning])
      · obtain ⟨b, hb⟩ := (doit_open_events env file).2 _ h
        exact absurd hb (by simp [warning])
      · exact absurd h.2 (by decide)
      · exact absurd h (by simp [warning])
      · exact absurd h (by decide)
      · exact absurd h.2 (by simp [warning])
    · intro h
      left
      simp [h]

theorem stage_dir_none (env : Env) (l : Locals) (file : String) (nr : Int) (r : Resolved)
    (h : r.dir = 0) :
    Event.open_ file true ∈ (stage_and_call env l file nr r).trace ∧
    ∀ fd, (doit_open env file).2 = Except.ok fd →
      Event.ioctl fd nr r.buf ∈ (stage_and_call env l file nr r).trace ∧
      (stage_and_call env l file nr r).status = Status.exit 0 := by
  rcases stage_and_call_cases env l file nr r with ⟨hu, _, hdir⟩ | ⟨t2, ht2, hf⟩
  · exfalso
    apply hdir
    omega
  · rw [hf]
    have hc : call_arg env r = r.buf := by
      unfold call_arg
      rw [if_neg (by omega)]
    refine ⟨?_, ?_⟩
    · rw [mem_finish]
      exact Or.inr (Or.inr (Or.inl (doit_open_events env file).1))
    · intro fd hfd
      refine ⟨?_, ?_⟩
      · rw [mem_finish]
        exact Or.inr (Or.inr (Or.inr (Or.inr ⟨fd, hfd, Or.inl (by rw [hc])⟩)))
      · rw [finish_status, hfd]

/-! ## The two loops over the signal table -/

theorem install_step_eq (env : Env) :
    install_step env = sig_step env Handler.SIG_DFL Handler.sighandler := rfl

theorem restore_step_eq (env : Env) :
    restore_step env = sig_step env Handler.sighandler Handler.SIG_DFL := rfl

/-- One pass of a loop body changes the entry `i` alone, and only when `sigaction`
accepts the signal, its action can be changed and it holds `test`. -/
theorem sig_step_table (env : Env) (test target : Handler) (st : SigLoop) (i j : Nat) :
    (sig_step env test target st i).table j =
      if j = i ∧ env.sig_valid i = true ∧ env.sig_kernel_only i = false ∧ st.table i = test
      then target else st.table j := by
  unfold sig_step sig_query sig_set sigaction
  cases hv : env.sig_valid i <;> cases hk : env.sig_kernel_only i <;>
    by_cases ht : st.table i = test <;> by_cases hj : j = i <;>
    by_cases ho : st.oldact = test <;>
    simp [hv, hk, ht, hj, ho, Function.update]

theorem sig_loop_table (env : Env) (test target : Handler) (st0 : SigLoop) (n j : Nat) :
    ((List.range n).foldl (sig_step env test target) st0).table j =
      if j < n ∧ env.sig_valid j = true ∧ env.sig_kernel_only j = false ∧ st0.table j = test
      then target else st0.table j := by
  induction n generalizing j with
  | zero => simp
  | succ n ih =>
    rw [List.range_succ, List.foldl_append]
    simp only [List.foldl_cons, List.foldl_nil]
    rw [sig_step_table, ih j]
    have ihn := ih n
    simp only [lt_self_iff_false, false_and, if_false] at ihn
    by_cases hj : j = n
    · subst hj
      simp [ihn]
    · by_cases hlt : j < n
      · have : j < n + 1 := by omega
        simp [hj, hlt, this]
      · have : ¬ j < n + 1 := by omega
        simp [hj, hlt, this]

/-! ## The claims -/

/-- C4: for every request code `nr` (every `int`, negative ones included) the four
accessors are total and return the bit fields of the code read as an unsigned 32-bit
pattern `nr % 2 ^ 32`: direction = bits 31..30 (in `0..3`), size = bits 29..16 (below
`2 ^ 14`), type = bits 15..8 and number = bits 7..0 (both below 256); the decoded
direction always indexes `dir_str`, so the first `display_parms` never fails. -/
theorem decode_bit_fields (nr : Int) :
    (_IOC_DIR nr = nr % 2 ^ 32 / 2 ^ 30 % 4 ∧ 0 ≤ _IOC_DIR nr ∧ _IOC_DIR nr ≤ 3) ∧
    (_IOC_SIZE nr = nr % 2 ^ 32 / 2 ^ 16 % 2 ^ 14 ∧ 0 ≤ _IOC_SIZE nr ∧ _IOC_SIZE nr < 2 ^ 14) ∧
    (_IOC_TYPE nr = nr % 2 ^ 32 / 2 ^ 8 % 256 ∧ 0 ≤ _IOC_TYPE nr ∧ _IOC_TYPE nr < 256) ∧
    (_IOC_NR nr = nr % 2 ^ 32 % 256 ∧ 0 ≤ _IOC_NR nr ∧ _IOC_NR nr < 256) ∧
    (display_parms "Decoded values" nr (_IOC_DIR nr) (_IOC_SIZE nr) (-1)).isSome = true := by
  refine ⟨?_, ?_, ?_, ?_, ?_⟩
  · rw [IOC_DIR_eq]; omega
  · rw [IOC_SIZE_eq]; omega
  · rw [IOC_TYPE_eq]; omega
  · rw [IOC_NR_eq]; omega
  · obtain ⟨t, ht⟩ := display_parms_some "Decoded values" nr (_IOC_DIR nr) (_IOC_SIZE nr) (-1)
      (Or.inr (IOC_DIR_range nr))
    rw [ht]; rfl


/-- C1 (as amended): when the option loop leaves a forced value other than the
"unset" marker `-1` together with a forced size or a forced direction other than
`-1`, as it does for `-v v -s n` and for `-v v -d d` whenever `v ≠ -1` and the `int`
value of `n` (of `d`) is not `-1`, `main` exits with status 1 at the compatibility
check and the run consists of lines on standard error only: no allocation, no read,
no open, no ioctl call, no write to standard output. -/
theorem incompatible_options_rejected (env : Env) (file nr_arg : String) :
    (∀ opts l, option_loop opts {} = Except.ok l → l.force_value ≠ -1 →
        (l.force_size ≠ -1 ∨ l.force_dir ≠ -1) → (main env opts [file, nr_arg]).rejected) ∧
    (∀ varg xarg v x, strtol varg = (v, false) → v ≠ -1 → strtol xarg = (x, false) →
        long_to_int x ≠ -1 →
        (main env [Opt.v varg, Opt.s xarg] [file, nr_arg]).rejected ∧
        (main env [Opt.v varg, Opt.d xarg] [file, nr_arg]).rejected) := by
  have gen : ∀ opts l, option_loop opts {} = Except.ok l → l.force_value ≠ -1 →
      (l.force_size ≠ -1 ∨ l.force_dir ≠ -1) → (main env opts [file, nr_arg]).rejected := by
    intro opts l hl hv hsd
    rw [main_eq env opts l file nr_arg hl]
    obtain ⟨t0, hs, he⟩ := main_body_eq env l file nr_arg
    rw [he]
    have hall : t0.all Event.is_stderr = true := by
      rw [List.all_eq_true]
      intro e hm
      exact (hs e hm).1
    unfold resolve_and_run
    by_cases h1 : l.force_size = -1
    · have h2 : l.force_dir ≠ -1 := by
        rcases hsd with h | h
        · exact absurd h1 h
        · exact h
      simp [Run.rejected, error, hv, h1, h2, hall, Event.is_stderr]
    · simp [Run.rejected, error, hv, h1, hall, Event.is_stderr]
  refine ⟨gen, ?_⟩
  intro varg xarg v x hv hv1 hx hx1
  constructor
  · apply gen _ ⟨-1, long_to_int x, v, false⟩
    · simp [option_loop, option_step, case_v, case_s, hv, hx]
    · exact hv1
    · exact Or.inl hx1
  · apply gen _ ⟨long_to_int x, -1, v, false⟩
    · simp [option_loop, option_step, case_v, case_d, hv, hx]
    · exact hv1
    · exact Or.inr hx1

/-- C1, at `-v 1 -s 4`: the run is rejected. -/
theorem incompatible_options_rejected_witness :
    (strtol "1" = (1, false) ∧ (1 : Int) ≠ -1 ∧ strtol "4" = (4, false) ∧ long_to_int 4 ≠ -1) ∧
    (main sample_env [Opt.v "1", Opt.s "4"] ["/dev/null", "0xC0104500"]).rejected :=
  ⟨by decide,
   ((incompatible_options_rejected sample_env "/dev/null" "0xC0104500").2 "1" "4" 1 4
      (by decide) (by decide) (by decide) (by decide)).1⟩

/-- C1 as stated fails at `-v -1 -s 4` and at `-v 1 -s -1`: the value `-1` is the
"unset" marker, the check does not fire, a block is allocated (first run) and the
call is made. -/
theorem unset_marker_not_rejected :
    (¬ (main sample_env [Opt.v "-1", Opt.s "4"] ["/dev/null", "0"]).rejected ∧
      (main sample_env [Opt.v "-1", Opt.s "4"] ["/dev/null", "0"]).status = Status.exit 0 ∧
      Event.malloc 4 ∈ (main sample_env [Opt.v "-1", Opt.s "4"] ["/dev/null", "0"]).trace ∧
      Event.open_ "/dev/null" true ∈
        (main sample_env [Opt.v "-1", Opt.s "4"] ["/dev/null", "0"]).trace) ∧
    (¬ (main sample_env [Opt.v "1", Opt.s "-1"] ["/dev/null", "0"]).rejected ∧
      Event.ioctl 3 0 (Arg.ptr 1) ∈
        (main sample_env [Opt.v "1", Opt.s "-1"] ["/dev/null", "0"]).trace) := by
  decide


/-- C2 (as amended): when the option loop leaves a forced value `v` other than the
"unset" marker `-1` and no forced size or direction, as it does for `-v v` alone
whenever `strtol` reads `v ≠ -1` without overflow, then whatever direction and size
the request code decodes to, the resolved values are payload = the raw value `v`,
direction 0 and size 0; the run issues no `read` and no `write`, every `ioctl` call
in it has `v` as its argument, and when the target opens that call is made and the
run ends with status 0. -/
theorem forced_value_resolution (env : Env) (file nr_arg : String) :
    (∀ opts l, option_loop opts {} = Except.ok l → l.force_value ≠ -1 →
        l.force_size = -1 → l.force_dir = -1 →
        (∀ dir size, allocate env l.force_value (apply_overrides l dir size).1
            (apply_overrides l dir size).2 = ([], some ⟨Arg.ptr l.force_value, 0, 0⟩)) ∧
        (∀ e ∈ (main env opts [file, nr_arg]).trace, e.is_read = false ∧ e.is_write = false) ∧
        (∀ fd n a, Event.ioctl fd n a ∈ (main env opts [file, nr_arg]).trace →
            a = Arg.ptr l.force_value) ∧
        (∀ fd, (doit_open env file).2 = Except.ok fd →
            Event.ioctl fd (long_to_int (strtol nr_arg).1) (Arg.ptr l.force_value) ∈
              (main env opts [file, nr_arg]).trace ∧
            (main env opts [file, nr_arg]).status = Status.exit 0)) ∧
    (∀ varg v, strtol varg = (v, false) → v ≠ -1 →
        option_loop [Opt.v varg] {} = Except.ok ⟨-1, -1, v, false⟩) := by
  constructor
  · intro opts l hl hv hs hd
    have halloc : ∀ dir size, allocate env l.force_value (apply_overrides l dir size).1
        (apply_overrides l dir size).2 = ([], some ⟨Arg.ptr l.force_value, 0, 0⟩) := by
      intro dir size
      simp [allocate, hv]
    refine ⟨halloc, ?_⟩
    rw [main_eq env opts l file nr_arg hl]
    obtain ⟨t0, ht0, he⟩ := main_body_eq env l file nr_arg
    rw [he]
    obtain ⟨t2, ht2⟩ : ∃ t2, (if l.quiet = true then some []
        else display_parms "Used values" (long_to_int (strtol nr_arg).1) 0 0 l.force_value) =
          some t2 ∧ ∀ e ∈ t2, e.is_stderr = true ∧ e ≠ warning := by
      by_cases hq : l.quiet = true
      · exact ⟨[], by simp [hq], by simp⟩
      · obtain ⟨t, ht⟩ := display_parms_some "Used values" (long_to_int (strtol nr_arg).1) 0 0
          l.force_value (Or.inl hv)
        exact ⟨t, by simp [hq, ht], display_parms_events _ _ _ _ _ _ (Or.inr rfl) ht⟩
    have hrun : resolve_and_run env l file (long_to_int (strtol nr_arg).1)
        (_IOC_DIR (long_to_int (strtol nr_arg).1)) (_IOC_SIZE (long_to_int (strtol nr_arg).1)) t0 =
        ⟨t0 ++ (finish env file (long_to_int (strtol nr_arg).1) ⟨Arg.ptr l.force_value, 0, 0⟩
            t2).trace,
         (finish env file (long_to_int (strtol nr_arg).1) ⟨Arg.ptr l.force_value, 0, 0⟩
            t2).status⟩ := by
      unfold resolve_and_run
      simp [hs, hd, halloc, stage_and_call, ht2.1]
    rw [hrun, finish_eq]
    have hst0 : ∀ e ∈ t0, e.is_read = false ∧ e.is_write = false ∧ e.is_ioctl = false := by
      intro e he0
      have := (ht0 e he0).1
      cases e <;> simp_all [Event.is_stderr, Event.is_read, Event.is_write, Event.is_ioctl]
    have hst2 : ∀ e ∈ t2, e.is_read = false ∧ e.is_write = false ∧ e.is_ioctl = false := by
      intro e he0
      have := (ht2.2 e he0).1
      cases e <;> simp_all [Event.is_stderr, Event.is_read, Event.is_write, Event.is_ioctl]
    have hop := (doit_open_events env file).2
    have hop2 : ∀ e ∈ (doit_open env file).1,
        e.is_read = false ∧ e.is_write = false ∧ e.is_ioctl = false := by
      intro e he0
      obtain ⟨b, hb⟩ := hop e he0
      subst hb
      exact ⟨rfl, rfl, rfl⟩
    rcases hres : (doit_open env file).2 with err | fd
    · refine ⟨?_, ?_, ?_⟩
      · intro e hm
        simp only [List.mem_append, List.mem_singleton, if_neg, List.append_nil] at hm
        simp at hm
        rcases hm with h | h | h | h
        · exact ⟨(hst0 e h).1, (hst0 e h).2.1⟩
        · exact ⟨(hst2 e h).1, (hst2 e h).2.1⟩
        · exact ⟨(hop2 e h).1, (hop2 e h).2.1⟩
        · subst h; exact ⟨rfl, rfl⟩
      · intro fd n a hm
        simp at hm
        rcases hm with h | h | h
        · have := (hst0 _ h).2.2; simp [Event.is_ioctl] at this
        · have := (hst2 _ h).2.2; simp [Event.is_ioctl] at this
        · have := (hop2 _ h).2.2; simp [Event.is_ioctl] at this
      · intro fd hfd
        cases hfd
    · refine ⟨?_, ?_, ?_⟩
      · intro e hm
        simp at hm
        rcases hm with h | h | h | h | h
        · exact ⟨(hst0 e h).1, (hst0 e h).2.1⟩
        · exact ⟨(hst2 e h).1, (hst2 e h).2.1⟩
        · exact ⟨(hop2 e h).1, (hop2 e h).2.1⟩
        · subst h; exact ⟨rfl, rfl⟩
        · subst h; exact ⟨rfl, rfl⟩
      · intro fd1 n a hm
        simp at hm
        rcases hm with h | h | h | h
        · have := (hst0 _ h).2.2; simp [Event.is_ioctl] at this
        · have := (hst2 _ h).2.2; simp [Event.is_ioctl] at this
        · have := (hop2 _ h).2.2; simp [Event.is_ioctl] at this
        · exact h.2.2
      · intro fd1 hfd
        injection hfd with hfd
        subst hfd
        simp
  · intro varg v hv hv1
    simp [option_loop, option_step, case_v, hv]


/-- C2, at `-v 42` with a request code that decodes to RW and size 16. -/
theorem forced_value_resolution_witness :
    (option_loop [Opt.v "42"] {} = Except.ok ⟨-1, -1, 42, false⟩ ∧ (42 : Int) ≠ -1 ∧
      (doit_open sample_env "/dev/null").2 = Except.ok 3) ∧
    (Event.ioctl 3 (long_to_int (strtol "0xC0100000").1) (Arg.ptr 42) ∈
        (main sample_env [Opt.v "42"] ["/dev/null", "0xC0100000"]).trace ∧
      (main sample_env [Opt.v "42"] ["/dev/null", "0xC0100000"]).status = Status.exit 0) :=
  ⟨by decide,
   ((forced_value_resolution sample_env "/dev/null" "0xC0100000").1 [Opt.v "42"]
      ⟨-1, -1, 42, false⟩ (by decide) (by decide) rfl rfl).2.2.2 3 (by decide)⟩

/-- C2 as stated fails at `-v -1`: the value is the "unset" marker, so with a request
code that decodes to R and size 16 a block of 16 bytes is allocated, 16 bytes are
read from standard input and the call receives the block, not the value `-1`. -/
theorem forced_value_minus_one :
    strtol "-1" = (-1, false) ∧
    option_loop [Opt.v "-1"] {} = Except.ok {} ∧
    allocate sample_env (-1) 1 16 =
      ([Event.malloc 16], some ⟨Arg.buf (List.replicate 16 0), 1, 16⟩) ∧
    Event.read 0 16 ∈ (main sample_env [Opt.v "-1"] ["/dev/null", "0x40100000"]).trace ∧
    Event.ioctl 3 0x40100000 (Arg.buf [1, 2, 3, 4, 5, 6, 7, 8, 9, 10, 0, 0, 0, 0, 0, 0]) ∈
      (main sample_env [Opt.v "-1"] ["/dev/null", "0x40100000"]).trace := by
  decide

/-- C3 (as amended): for `-d d` with `d` in `0..3` and `-s n` with `n` an `int` other
than the "unset" marker `-1` (and no `-v`), in either order, the resolved direction is
`d` and the resolved size is `n`, whatever direction `dir` and size `size` the request
code decodes to; with `-d` alone the size stays `size`, with `-s` alone the direction
stays `dir`; and these are the values `main` goes on with whenever the allocation
returns. -/
theorem forced_dir_size_resolution (darg sarg : String) (d n dir size : Int)
    (hd : strtol darg = (d, false)) (hd3 : 0 ≤ d ∧ d ≤ 3)
    (hn : strtol sarg = (n, false)) (hn1 : -2 ^ 31 ≤ n ∧ n < 2 ^ 31) (hn2 : n ≠ -1) :
    (option_loop [Opt.d darg, Opt.s sarg] {} = Except.ok ⟨d, n, -1, false⟩ ∧
      option_loop [Opt.s sarg, Opt.d darg] {} = Except.ok ⟨d, n, -1, false⟩ ∧
      apply_overrides ⟨d, n, -1, false⟩ dir size = (d, n)) ∧
    (option_loop [Opt.d darg] {} = Except.ok ⟨d, -1, -1, false⟩ ∧
      apply_overrides ⟨d, -1, -1, false⟩ dir size = (d, size)) ∧
    (option_loop [Opt.s sarg] {} = Except.ok ⟨-1, n, -1, false⟩ ∧
      apply_overrides ⟨-1, n, -1, false⟩ dir size = (dir, n)) ∧
    (∀ env l t r, l.force_value = -1 →
      allocate env l.force_value (apply_overrides l dir size).1 (apply_overrides l dir size).2 =
        (t, some r) →
      r.dir = (apply_overrides l dir size).1 ∧ r.size = (apply_overrides l dir size).2) := by
  have hdi : long_to_int d = d := by unfold long_to_int; omega
  have hni : long_to_int n = n := by unfold long_to_int; omega
  have hd1 : d ≠ -1 := by omega
  refine ⟨⟨?_, ?_, ?_⟩, ⟨?_, ?_⟩, ⟨?_, ?_⟩, ?_⟩
  · simp [option_loop, option_step, case_d, case_s, hd, hn, hdi, hni]
  · simp [option_loop, option_step, case_d, case_s, hd, hn, hdi, hni]
  · simp [apply_overrides, hd1, hn2]
  · simp [option_loop, option_step, case_d, hd, hdi]
  · simp [apply_overrides, hd1]
  · simp [option_loop, option_step, case_s, hn, hni]
  · simp [apply_overrides, hn2]
  · intro env l t r hv h
    unfold allocate at h
    rw [if_neg (by simpa using hv)] at h
    split at h
    · rename_i h0
      injection h with _ h
      injection h with h
      subst h
      exact ⟨rfl, rfl⟩
    · split at h
      · injection h with _ h
        injection h with h
        subst h
        exact ⟨rfl, rfl⟩
      · injection h with _ h
        cases h

/-- C3, at `-d 1 -s 8` on a request code that decodes to direction 0 and size 16. -/
theorem forced_dir_size_resolution_witness :
    (strtol "1" = (1, false) ∧ strtol "8" = (8, false)) ∧
    apply_overrides ⟨1, 8, -1, false⟩ (_IOC_DIR 0x100000) (_IOC_SIZE 0x100000) = (1, 8) :=
  ⟨by decide,
   (forced_dir_size_resolution "1" "8" 1 8 (_IOC_DIR 0x100000) (_IOC_SIZE 0x100000)
      (by decide) (by decide) (by decide) (by decide) (by decide)).1.2.2⟩

/-- C3 as stated fails at `-d 1 -s -1`: the size `-1` is the "unset" marker, so on a
request code that decodes to size 16 the resolved size is 16, not `-1`, and 16 bytes
are allocated. -/
theorem forced_size_minus_one :
    option_loop [Opt.d "1", Opt.s "-1"] {} = Except.ok ⟨1, -1, -1, false⟩ ∧
    apply_overrides ⟨1, -1, -1, false⟩ (_IOC_DIR 0x100000) (_IOC_SIZE 0x100000) = (1, 16) ∧
    Event.malloc 16 ∈
      (main sample_env [Opt.d "1", Opt.s "-1"] ["/dev/null", "0x100000"]).trace := by
  decide

theorem dir_lookup_name (optarg : String) (h : dir_lookup optarg ≠ -1) :
    optarg = "NONE" ∨ optarg = "R" ∨ optarg = "W" ∨ optarg = "RW" := by
  by_contra hne
  simp only [not_or] at hne
  obtain ⟨h0, h1, h2, h3⟩ := hne
  apply h
  have e0 : ¬ ("NONE" = optarg) := fun h => h0 h.symm
  have e1 : ¬ ("R" = optarg) := fun h => h1 h.symm
  have e2 : ¬ ("W" = optarg) := fun h => h2 h.symm
  have e3 : ¬ ("RW" = optarg) := fun h => h3 h.symm
  simp [dir_lookup, ARRAY_SIZE, dir_str, List.range_succ, e0, e1, e2, e3]

/-- The name lookup of `case 'd'` is entered only after an overflow, that is for a
string of digits, which is no name: every pass through it ends with "Invalid
direction". -/
theorem name_lookup_always_fails (optarg : String) (l : Locals) (h : (strtol optarg).2 = true) :
    case_d optarg l = Except.error (error "Invalid direction") := by
  have hl : dir_lookup optarg = -1 := by
    by_contra hne
    rcases dir_lookup_name optarg hne with h1 | h1 | h1 | h1 <;> subst h1 <;>
      exact absurd h (by decide)
  simp [case_d, h, hl]

/-- C5: the code at `-d NONE`, `-d R`, `-d W`, `-d RW`.  `strtol` finds no digit in a
name, returns 0 and leaves `errno` at 0, so the name lookup, which sits under
`if (errno)`, is not run and the forced direction is 0 for every name, where the
lookup itself would give 0, 1, 2, 3 and the numeric arguments do. -/
theorem dir_names_read_as_zero :
    (strtol "R" = (0, false) ∧
      option_loop [Opt.d "NONE"] {} = Except.ok ⟨0, -1, -1, false⟩ ∧
      option_loop [Opt.d "R"] {} = Except.ok ⟨0, -1, -1, false⟩ ∧
      option_loop [Opt.d "W"] {} = Except.ok ⟨0, -1, -1, false⟩ ∧
      option_loop [Opt.d "RW"] {} = Except.ok ⟨0, -1, -1, false⟩) ∧
    (dir_lookup "NONE" = 0 ∧ dir_lookup "R" = 1 ∧ dir_lookup "W" = 2 ∧ dir_lookup "RW" = 3) ∧
    (option_loop [Opt.d "0"] {} = Except.ok ⟨0, -1, -1, false⟩ ∧
      option_loop [Opt.d "1"] {} = Except.ok ⟨1, -1, -1, false⟩ ∧
      option_loop [Opt.d "2"] {} = Except.ok ⟨2, -1, -1, false⟩ ∧
      option_loop [Opt.d "3"] {} = Except.ok ⟨3, -1, -1, false⟩) ∧
    (main sample_env [Opt.s "8", Opt.d "R"] ["/dev/null", "0"]).trace =
      [Event.stderr "Decoded values: direction=NONE", Event.malloc 8, warning,
       Event.stderr "Used values: direction=NONE", Event.open_ "/dev/null" true,
       Event.ioctl 3 0 (Arg.buf [0, 0, 0, 0, 0, 0, 0, 0]), Event.stderr "Returned"] := by
  decide

/-- C6: the code at `-d 7` and at `-d foo`.  Neither is rejected: the forced direction
is 7 (resp. 0); with 7 the second `display_parms` indexes `dir_str` outside its four
entries, and under `-q` the run goes on to the call and ends with status 0. -/
theorem dir_out_of_range_accepted :
    option_loop [Opt.d "7"] {} = Except.ok ⟨7, -1, -1, false⟩ ∧
    option_loop [Opt.d "foo"] {} = Except.ok ⟨0, -1, -1, false⟩ ∧
    display_parms "Used values" 0 7 0 (-1) = none ∧
    main sample_env [Opt.d "7"] ["/dev/null", "0"] =
      ⟨[Event.stderr "Decoded values: direction=NONE"], Status.undefined⟩ ∧
    main sample_env [Opt.q, Opt.d "7"] ["/dev/null", "0"] =
      ⟨[Event.open_ "/dev/null" true, Event.ioctl 3 0 NULL, Event.stderr "Returned"],
       Status.exit 0⟩ := by
  decide


/-- C8 (as amended): for every resolved direction, size and payload, the `read` from
standard input is issued if and only if the direction is 1 or 3, and the `write` to
standard output if and only if the direction is 2 or 3 and the target could be
opened; this holds whether the payload is an allocated block or `NULL`, the count of
either call being the resolved size; every `read` stands before the `ioctl` call and
every `write` after it. -/
theorem stream_calls_by_direction (env : Env) (l : Locals) (file : String) (nr : Int)
    (r : Resolved) :
    ((∃ e ∈ (stage_and_call env l file nr r).trace, e.is_read = true) ↔
      (r.dir = 1 ∨ r.dir = 3)) ∧
    (∀ e ∈ (stage_and_call env l file nr r).trace, e.is_read = true →
      e = Event.read 0 (to_size_t r.size)) ∧
    ((∃ e ∈ (stage_and_call env l file nr r).trace, e.is_write = true) ↔
      ((r.dir = 2 ∨ r.dir = 3) ∧ ∃ fd, (doit_open env file).2 = Except.ok fd)) ∧
    (∀ e ∈ (stage_and_call env l file nr r).trace, e.is_write = true →
      ∃ a, e = Event.write 1 a (to_size_t r.size)) ∧
    (∀ pre post fd a, (stage_and_call env l file nr r).trace = pre ++ Event.ioctl fd nr a :: post →
      (∀ e ∈ pre, e.is_write = false) ∧ (∀ e ∈ post, e.is_read = false)) := by
  have hw : warning.is_read = false ∧ warning.is_write = false ∧ warning.is_ioctl = false :=
    ⟨rfl, rfl, rfl⟩
  have hwarn : ∀ e ∈ (if r.dir = 0 ∧ r.size ≠ 0 then [warning] else []),
      e.is_read = false ∧ e.is_write = false ∧ e.is_ioctl = false := by
    intro e he
    split at he
    · simp only [List.mem_singleton] at he
      subst he
      exact hw
    · cases he
  have hopen : ∀ e ∈ (doit_open env file).1,
      e.is_read = false ∧ e.is_write = false ∧ e.is_ioctl = false := by
    intro e he
    obtain ⟨b, hb⟩ := (doit_open_events env file).2 e he
    subst hb
    exact ⟨rfl, rfl, rfl⟩
  rcases stage_and_call_cases env l file nr r with ⟨hu, _, hdir⟩ | ⟨t2, ht2, hf⟩
  · rw [hu]
    have h13 : ¬ (r.dir = 1 ∨ r.dir = 3) := by omega
    have h23 : ¬ (r.dir = 2 ∨ r.dir = 3) := by omega
    refine ⟨?_, ?_, ?_, ?_, ?_⟩
    · constructor
      · rintro ⟨e, he, hr⟩
        have := (hwarn e he).1
        rw [hr] at this
        cases this
      · intro h
        exact absurd h h13
    · intro e he hr
      have := (hwarn e he).1
      rw [hr] at this
      cases this
    · constructor
      · rintro ⟨e, he, hr⟩
        have := (hwarn e he).2.1
        rw [hr] at this
        cases this
      · intro h
        exact absurd h.1 h23
    · intro e he hr
      have := (hwarn e he).2.1
      rw [hr] at this
      cases this
    · intro pre post fd a h
      have hm : Event.ioctl fd nr a ∈ (if r.dir = 0 ∧ r.size ≠ 0 then [warning] else []) := by
        show Event.ioctl fd nr a ∈
          (⟨if r.dir = 0 ∧ r.size ≠ 0 then [warning] else [], Status.undefined⟩ : Run).trace
        rw [h]
        simp
      have := (hwarn _ hm).2.2
      cases this
  · rw [hf]
    have ht : ∀ e ∈ (if r.dir = 0 ∧ r.size ≠ 0 then [warning] else []) ++ t2,
        e.is_read = false ∧ e.is_write = false ∧ e.is_ioctl = false := by
      intro e he
      rcases List.mem_append.1 he with h | h
      · exact hwarn e h
      · exact stderr_not_call e (ht2 e h).1
    refine ⟨?_, ?_, ?_, ?_, ?_⟩
    · constructor
      · rintro ⟨e, he, hr⟩
        rcases (mem_finish env file nr r _ e).1 he with h | h | h | h | ⟨fd, _, h | h | h⟩
        · have := (ht e h).1; rw [hr] at this; cases this
        · exact h.1
        · have := (hopen e h).1; rw [hr] at this; cases this
        · rw [h.2] at hr; cases hr
        · rw [h] at hr; cases hr
        · rw [h] at hr; cases hr
        · rw [h.2] at hr; cases hr
      · intro h
        exact ⟨_, (mem_finish env file nr r _ _).2 (Or.inr (Or.inl ⟨h, rfl⟩)), rfl⟩
    · intro e he hr
      rcases (mem_finish env file nr r _ e).1 he with h | h | h | h | ⟨fd, _, h | h | h⟩
      · have := (ht e h).1; rw [hr] at this; cases this
      · exact h.2
      · have := (hopen e h).1; rw [hr] at this; cases this
      · rw [h.2] at hr; cases hr
      · rw [h] at hr; cases hr
      · rw [h] at hr; cases hr
      · rw [h.2] at hr; cases hr
    · constructor
      · rintro ⟨e, he, hr⟩
        rcases (mem_finish env file nr r _ e).1 he with h | h | h | h | ⟨fd, hfd, h | h | h⟩
        · have := (ht e h).2.1; rw [hr] at this; cases this
        · rw [h.2] at hr; cases hr
        · have := (hopen e h).2.1; rw [hr] at this; cases this
        · rw [h.2] at hr; cases hr
        · rw [h] at hr; cases hr
        · rw [h] at hr; cases hr
        · exact ⟨h.1, fd, hfd⟩
      · rintro ⟨h, fd, hfd⟩
        exact ⟨_, (mem_finish env file nr r _ _).2
          (Or.inr (Or.inr (Or.inr (Or.inr ⟨fd, hfd, Or.inr (Or.inr ⟨h, rfl⟩)⟩)))), rfl⟩
    · intro e he hr
      rcases (mem_finish env file nr r _ e).1 he with h | h | h | h | ⟨fd, hfd, h | h | h⟩
      · have := (ht e h).2.1; rw [hr] at this; cases this
      · rw [h.2] at hr; cases hr
      · have := (hopen e h).2.1; rw [hr] at this; cases this
      · rw [h.2] at hr; cases hr
      · rw [h] at hr; cases hr
      · rw [h] at hr; cases hr
      · exact ⟨_, h.2⟩
    · intro pre post fd a h
      rw [finish_eq] at h
      rcases hres : (doit_open env file).2 with err | fd1
      · rw [hres] at h
        have hm : Event.ioctl fd nr a ∈ pre ++ Event.ioctl fd nr a :: post := by simp
        rw [← h] at hm
        simp only [List.mem_append, List.mem_singleton] at hm
        rcases hm with (hm | hm) | hm | hm
        · have := (ht _ (List.mem_append.2 hm)).2.2; cases this
        · split at hm
          · simp at hm
          · cases hm
        · have := (hopen _ hm).2.2; cases this
        · cases hm
      · rw [hres] at h
        simp only [List.append_assoc, List.cons_append, List.nil_append] at h
        have hA : ∀ e ∈ ((if r.dir = 0 ∧ r.size ≠ 0 then [warning] else []) ++
            (t2 ++ ((if r.dir = 1 ∨ r.dir = 3 then [Event.read 0 (to_size_t r.size)] else []) ++
              (doit_open env file).1))), e.is_ioctl = false := by
          intro e he
          simp only [List.mem_append] at he
          rcases he with he | he | he | he
          · exact (hwarn e he).2.2
          · exact (stderr_not_call e (ht2 e he).1).2.2
          · split at he
            · simp only [List.mem_singleton] at he
              subst he
              rfl
            · cases he
          · exact (hopen e he).2.2
        have hB : ∀ e ∈ (Event.stderr "Returned" ::
            (if r.dir = 2 ∨ r.dir = 3 then
              [Event.write 1 (env.ioctl fd1 nr
                (if r.dir = 1 ∨ r.dir = 3 then read env r.buf (to_size_t r.size) else r.buf)).2
                (to_size_t r.size)] else [])), e.is_ioctl = false := by
          intro e he
          simp only [List.mem_cons] at he
          rcases he with he | he
          · subst he; rfl
          · split at he
            · simp only [List.mem_singleton] at he
              subst he
              rfl
            · cases he
        have hsplit := split_unique Event.is_ioctl _ _ pre post _ (Event.ioctl fd nr a) hA hB rfl
          (by simpa only [List.append_assoc] using h)
        obtain ⟨hpre, hpost⟩ := hsplit
        subst hpre
        subst hpost
        constructor
        · intro e he
          simp only [List.mem_append] at he
          rcases he with he | he | he | he
          · exact (hwarn e he).2.1
          · exact (stderr_not_call e (ht2 e he).1).2.1
          · split at he
            · simp only [List.mem_singleton] at he
              subst he
              rfl
            · cases he
          · exact (hopen e he).2.1
        · intro e he
          simp only [List.mem_cons] at he
          rcases he with he | he
          · subst he; rfl
          · split at he
            · simp only [List.mem_singleton] at he
              subst he
              rfl
            · cases he


/-- C8, at direction 1 with the `NULL` payload. -/
theorem stream_calls_by_direction_witness :
    (∃ e ∈ (stage_and_call sample_env {} "/dev/null" 0 ⟨NULL, 1, 0⟩).trace, e.is_read = true) ↔
      ((1 : Int) = 1 ∨ (1 : Int) = 3) :=
  (stream_calls_by_direction sample_env {} "/dev/null" 0 ⟨NULL, 1, 0⟩).1

/-- C8 as stated fails on the request code `0x40000000` (direction R, size 0): the
payload is `NULL`, yet `read(0, NULL, 0)` is issued before the call; and with `-d 2`
on the request code 0 the payload is `NULL` and `write(1, NULL, 0)` is issued after
the call. -/
theorem read_issued_without_buffer :
    allocate sample_env (-1) (_IOC_DIR 0x40000000) (_IOC_SIZE 0x40000000) =
      ([], some ⟨NULL, 1, 0⟩) ∧
    main sample_env [] ["/dev/null", "0x40000000"] =
      ⟨[Event.stderr "Decoded values: direction=R", Event.stderr "Used values: direction=R",
        Event.read 0 0, Event.open_ "/dev/null" true, Event.ioctl 3 0x40000000 NULL,
        Event.stderr "Returned"], Status.exit 0⟩ ∧
    main sample_env [Opt.d "2"] ["/dev/null", "0"] =
      ⟨[Event.stderr "Decoded values: direction=NONE", Event.stderr "Used values: direction=W",
        Event.open_ "/dev/null" true, Event.ioctl 3 0 NULL, Event.stderr "Returned",
        Event.write 1 NULL 0], Status.exit 0⟩ := by
  decide

/-- C10 (as amended): in a run whose options pass the loop, the warning is emitted
only when no forced value is in force and the resolved direction is 0 with a resolved
size other than 0, whether these values come from the request code, from `-s` or from
`-d`; it is emitted whenever that holds and the allocation succeeds.  A run that
emits it is not aborted: it goes on to open the target and, when the target opens,
makes the `ioctl` call and ends with status 0. -/
theorem warning_condition (env : Env) (opts : List Opt) (l : Locals) (file nr_arg : String)
    (nr : Int) (hl : option_loop opts {} = Except.ok l)
    (hnr : nr = long_to_int (strtol nr_arg).1) :
    (warning ∈ (main env opts [file, nr_arg]).trace →
      l.force_value = -1 ∧
      (apply_overrides l (_IOC_DIR nr) (_IOC_SIZE nr)).1 = 0 ∧
      (apply_overrides l (_IOC_DIR nr) (_IOC_SIZE nr)).2 ≠ 0 ∧
      Event.open_ file true ∈ (main env opts [file, nr_arg]).trace ∧
      (∀ fd, (doit_open env file).2 = Except.ok fd →
        (∃ a, Event.ioctl fd nr a ∈ (main env opts [file, nr_arg]).trace) ∧
        (main env opts [file, nr_arg]).status = Status.exit 0)) ∧
    (l.force_value = -1 →
      (apply_overrides l (_IOC_DIR nr) (_IOC_SIZE nr)).1 = 0 →
      (apply_overrides l (_IOC_DIR nr) (_IOC_SIZE nr)).2 ≠ 0 →
      env.malloc_ok (to_size_t (apply_overrides l (_IOC_DIR nr) (_IOC_SIZE nr)).2) = true →
      warning ∈ (main env opts [file, nr_arg]).trace) := by
  subst hnr
  rw [main_eq env opts l file nr_arg hl]
  obtain ⟨t0, ht0, he⟩ := main_body_eq env l file nr_arg
  rw [he]
  rcases resolve_and_run_cases env l file (long_to_int (strtol nr_arg).1)
      (_IOC_DIR (long_to_int (strtol nr_arg).1)) (_IOC_SIZE (long_to_int (strtol nr_arg).1)) t0
    with ⟨hv, _, hr | hr⟩ | ⟨hn, t1, ha, hr⟩ | ⟨hn, t1, r, ha, hr⟩
  · rw [hr]
    refine ⟨?_, fun h => absurd h hv⟩
    intro hw
    rcases List.mem_append.1 hw with h | h
    · exact absurd rfl (ht0 _ h).2
    · exact absurd h (by decide)
  · rw [hr]
    refine ⟨?_, fun h => absurd h hv⟩
    intro hw
    rcases List.mem_append.1 hw with h | h
    · exact absurd rfl (ht0 _ h).2
    · exact absurd h (by decide)
  · rw [hr]
    rcases allocate_cases env l.force_value
        (apply_overrides l (_IOC_DIR (long_to_int (strtol nr_arg).1))
          (_IOC_SIZE (long_to_int (strtol nr_arg).1))).1
        (apply_overrides l (_IOC_DIR (long_to_int (strtol nr_arg).1))
          (_IOC_SIZE (long_to_int (strtol nr_arg).1))).2
      with ⟨_, h⟩ | ⟨_, _, h⟩ | ⟨_, _, _, h⟩ | ⟨hv, hs, hm, h⟩
    · rw [h] at ha; cases ha
    · rw [h] at ha; cases ha
    · rw [h] at ha; cases ha
    · rw [h] at ha
      injection ha with ht1 _
      subst ht1
      constructor
      · intro hw
        rcases List.mem_append.1 hw with h1 | h1
        · exact absurd rfl (ht0 _ h1).2
        · exact absurd h1 (by simp [warning])
      · intro _ _ _ hok
        rw [hm] at hok
        cases hok
  · rw [hr]
    have key : ∀ t1 : List Event, warning ∉ t1 →
        ((r.dir = 0 ∧ r.size ≠ 0) ↔ warning ∈
          (⟨t0 ++ t1 ++ (stage_and_call env l file (long_to_int (strtol nr_arg).1) r).trace,
            (stage_and_call env l file (long_to_int (strtol nr_arg).1) r).status⟩ : Run).trace) := by
      intro t1 ht1
      rw [← mem_stage_warning env l file (long_to_int (strtol nr_arg).1) r]
      constructor
      · intro h
        exact List.mem_append_right _ h
      · intro h
        rcases List.mem_append.1 h with h | h
        · rcases List.mem_append.1 h with h | h
          · exact absurd rfl (ht0 _ h).2
          · exact absurd h ht1
        · exact h
    have after : r.dir = 0 →
        Event.open_ file true ∈
          (⟨t0 ++ t1 ++ (stage_and_call env l file (long_to_int (strtol nr_arg).1) r).trace,
            (stage_and_call env l file (long_to_int (strtol nr_arg).1) r).status⟩ : Run).trace ∧
        ∀ fd, (doit_open env file).2 = Except.ok fd →
          (∃ a, Event.ioctl fd (long_to_int (strtol nr_arg).1) a ∈
            (⟨t0 ++ t1 ++ (stage_and_call env l file (long_to_int (strtol nr_arg).1) r).trace,
              (stage_and_call env l file (long_to_int (strtol nr_arg).1) r).status⟩ : Run).trace) ∧
          (⟨t0 ++ t1 ++ (stage_and_call env l file (long_to_int (strtol nr_arg).1) r).trace,
            (stage_and_call env l file (long_to_int (strtol nr_arg).1) r).status⟩ : Run).status =
            Status.exit 0 := by
      intro hd
      obtain ⟨h1, h2⟩ := stage_dir_none env l file (long_to_int (strtol nr_arg).1) r hd
      refine ⟨List.mem_append_right _ h1, ?_⟩
      intro fd hfd
      exact ⟨⟨r.buf, List.mem_append_right _ (h2 fd hfd).1⟩, (h2 fd hfd).2⟩
    rcases allocate_cases env l.force_value
        (apply_overrides l (_IOC_DIR (long_to_int (strtol nr_arg).1))
          (_IOC_SIZE (long_to_int (strtol nr_arg).1))).1
        (apply_overrides l (_IOC_DIR (long_to_int (strtol nr_arg).1))
          (_IOC_SIZE (long_to_int (strtol nr_arg).1))).2
      with ⟨hv, h⟩ | ⟨hv, hs, h⟩ | ⟨hv, hs, hm, h⟩ | ⟨_, _, _, h⟩
    · rw [h] at ha
      injection ha with ht1 hr1
      injection hr1 with hr1
      subst ht1
      subst hr1
      refine ⟨?_, fun h => absurd h hv⟩
      intro hw
      have := (key [] (by simp)).2 hw
      exact absurd rfl this.2
    · rw [h] at ha
      injection ha with ht1 hr1
      injection hr1 with hr1
      subst ht1
      subst hr1
      refine ⟨?_, fun _ _ h2 => absurd hs h2⟩
      intro hw
      have := (key [] (by simp)).2 hw
      exact absurd hs this.2
    · rw [h] at ha
      injection ha with ht1 hr1
      injection hr1 with hr1
      subst ht1
      subst hr1
      have hnw : warning ∉ [Event.malloc (to_size_t (apply_overrides l
          (_IOC_DIR (long_to_int (strtol nr_arg).1))
          (_IOC_SIZE (long_to_int (strtol nr_arg).1))).2)] := by simp [warning]
      constructor
      · intro hw
        have hds := (key _ hnw).2 hw
        exact ⟨hv, hds.1, hds.2, after hds.1⟩
      · intro _ h1 h2 _
        exact (key _ hnw).1 ⟨h1, h2⟩
    · rw [h] at ha; cases ha

/-- C10, on the request code `0x40000` (direction 0, size 4) without options. -/
theorem warning_condition_witness :
    (option_loop [] {} = Except.ok {} ∧
      warning ∈ (main sample_env [] ["/dev/null", "0x40000"]).trace) ∧
    Event.open_ "/dev/null" true ∈ (main sample_env [] ["/dev/null", "0x40000"]).trace :=
  ⟨by decide,
   ((warning_condition sample_env [] {} "/dev/null" "0x40000" _ (by decide) rfl).1
      (by decide)).2.2.2.1⟩

/-- C10 as stated fails: on the request code `0x40000` (direction bits 0, size bits 4)
without any option, and on the request code 0 with `-s 4` alone, the warning is
emitted although `-d` was not given. -/
theorem warning_without_forced_direction :
    (option_loop [] {} = Except.ok ⟨-1, -1, -1, false⟩ ∧
      warning ∈ (main sample_env [] ["/dev/null", "0x40000"]).trace) ∧
    (option_loop [Opt.s "4"] {} = Except.ok ⟨-1, 4, -1, false⟩ ∧
      warning ∈ (main sample_env [Opt.s "4"] ["/dev/null", "0"]).trace) := by
  decide


/-- C7 (as amended): in a run whose options pass the loop without a forced value, if
the resolved size is 0 the payload is `NULL` and every `ioctl` call of the run
receives `NULL`; if the resolved size is positive and `malloc` grants the block, the
payload is that block, its length is the resolved size and every byte of it is zero
before the input phase. -/
theorem allocate_payload (env : Env) (opts : List Opt) (l : Locals) (file nr_arg : String)
    (nr : Int) (hl : option_loop opts {} = Except.ok l)
    (hnr : nr = long_to_int (strtol nr_arg).1) (hv : l.force_value = -1) :
    ((apply_overrides l (_IOC_DIR nr) (_IOC_SIZE nr)).2 = 0 →
      allocate env l.force_value (apply_overrides l (_IOC_DIR nr) (_IOC_SIZE nr)).1
          (apply_overrides l (_IOC_DIR nr) (_IOC_SIZE nr)).2 =
        ([], some ⟨NULL, (apply_overrides l (_IOC_DIR nr) (_IOC_SIZE nr)).1, 0⟩) ∧
      ∀ fd n a, Event.ioctl fd n a ∈ (main env opts [file, nr_arg]).trace → a = NULL) ∧
    (0 < (apply_overrides l (_IOC_DIR nr) (_IOC_SIZE nr)).2 →
      env.malloc_ok (apply_overrides l (_IOC_DIR nr) (_IOC_SIZE nr)).2.toNat = true →
      allocate env l.force_value (apply_overrides l (_IOC_DIR nr) (_IOC_SIZE nr)).1
          (apply_overrides l (_IOC_DIR nr) (_IOC_SIZE nr)).2 =
        ([Event.malloc (apply_overrides l (_IOC_DIR nr) (_IOC_SIZE nr)).2.toNat],
         some ⟨Arg.buf (List.replicate (apply_overrides l (_IOC_DIR nr) (_IOC_SIZE nr)).2.toNat 0),
           (apply_overrides l (_IOC_DIR nr) (_IOC_SIZE nr)).1,
           (apply_overrides l (_IOC_DIR nr) (_IOC_SIZE nr)).2⟩) ∧
      ((List.replicate (apply_overrides l (_IOC_DIR nr) (_IOC_SIZE nr)).2.toNat (0 : Nat)).length
        : Int) = (apply_overrides l (_IOC_DIR nr) (_IOC_SIZE nr)).2) := by
  subst hnr
  generalize hds : apply_overrides l (_IOC_DIR (long_to_int (strtol nr_arg).1))
    (_IOC_SIZE (long_to_int (strtol nr_arg).1)) = ds
  have hrange : ds.2 < 2 ^ 31 := by
    have h1 := (option_loop_force_size_range opts {} l hl (by decide)).2
    have h2 := (IOC_SIZE_range (long_to_int (strtol nr_arg).1)).2
    rw [← hds]
    simp only [apply_overrides]
    split <;> omega
  constructor
  · intro hs
    have halloc : allocate env l.force_value ds.1 ds.2 = ([], some ⟨NULL, ds.1, 0⟩) := by
      rcases allocate_cases env l.force_value ds.1 ds.2
        with ⟨h, _⟩ | ⟨_, _, h⟩ | ⟨_, h, _⟩ | ⟨_, h, _⟩
      · exact absurd hv h
      · rw [h, hs]
      · exact absurd hs h
      · exact absurd hs h
    refine ⟨halloc, ?_⟩
    intro fd n a hm
    rw [main_eq env opts l file nr_arg hl] at hm
    obtain ⟨t0, ht0, he⟩ := main_body_eq env l file nr_arg
    rw [he] at hm
    have hn0 : ∀ t : List Event, (∀ e ∈ t, e.is_stderr = true ∧ e ≠ warning) →
        Event.ioctl fd n a ∉ t := by
      intro t ht hmem
      have := (ht _ hmem).1
      cases this
    rcases resolve_and_run_cases env l file (long_to_int (strtol nr_arg).1)
        (_IOC_DIR (long_to_int (strtol nr_arg).1)) (_IOC_SIZE (long_to_int (strtol nr_arg).1)) t0
      with ⟨h, _⟩ | ⟨_, t1, ha, _⟩ | ⟨_, t1, r, ha, hr⟩
    · exact absurd hv h
    · rw [hds, halloc] at ha
      cases ha
    · rw [hds, halloc] at ha
      injection ha with ht1 hr1
      injection hr1 with hr1
      subst ht1
      subst hr1
      rw [hr] at hm
      simp only [List.append_nil, List.mem_append] at hm
      rcases hm with hm | hm
      · exact absurd hm (hn0 t0 ht0)
      · rcases stage_and_call_cases env l file (long_to_int (strtol nr_arg).1) ⟨NULL, ds.1, 0⟩
          with ⟨hu, _, _⟩ | ⟨t2, ht2, hf⟩
        · rw [hu] at hm
          simp at hm
        · rw [hf, mem_finish] at hm
          rcases hm with h | h | h | h | ⟨fd1, _, h | h | h⟩
          · simp only [ne_eq, not_true_eq_false, and_false, if_false, List.nil_append] at h
            exact absurd h (hn0 t2 ht2)
          · cases h.2
          · obtain ⟨b, hb⟩ := (doit_open_events env file).2 _ h
            cases hb
          · cases h.2
          · injection h with _ _ h
            rw [h]
            unfold call_arg
            split <;> rfl
          · cases h
          · cases h.2
  · intro hpos hok
    have hsz : to_size_t ds.2 = ds.2.toNat := by
      unfold to_size_t
      rw [Int.emod_eq_of_lt (le_of_lt hpos) (by omega)]
    refine ⟨?_, ?_⟩
    · rcases allocate_cases env l.force_value ds.1 ds.2
        with ⟨h, _⟩ | ⟨_, h, _⟩ | ⟨_, _, _, h⟩ | ⟨_, _, h, _⟩
      · exact absurd hv h
      · omega
      · rw [h, hsz]
      · rw [hsz, hok] at h
        cases h
    · rw [List.length_replicate]
      omega

/-- C7, without options on the request code `0x100000` (direction 0, size 16): the
payload is a block of 16 zero bytes. -/
theorem allocate_payload_witness :
    (option_loop [] {} = Except.ok {} ∧ ({} : Locals).force_value = -1 ∧
      0 < (apply_overrides {} (_IOC_DIR (long_to_int (strtol "0x100000").1))
        (_IOC_SIZE (long_to_int (strtol "0x100000").1))).2 ∧
      sample_env.malloc_ok (apply_overrides {} (_IOC_DIR (long_to_int (strtol "0x100000").1))
        (_IOC_SIZE (long_to_int (strtol "0x100000").1))).2.toNat = true) ∧
    ((List.replicate (apply_overrides {} (_IOC_DIR (long_to_int (strtol "0x100000").1))
        (_IOC_SIZE (long_to_int (strtol "0x100000").1))).2.toNat (0 : Nat)).length : Int) =
      (apply_overrides {} (_IOC_DIR (long_to_int (strtol "0x100000").1))
        (_IOC_SIZE (long_to_int (strtol "0x100000").1))).2 :=
  ⟨by decide,
   ((allocate_payload sample_env [] {} "/dev/null" "0x100000" _ (by decide) rfl (by decide)).2
      (by decide) (by decide)).2⟩

/-- C7 as stated fails at `-s -5`: the resolved size is `-5`, not 0, and no block of
that length exists; `malloc` is asked for `2 ^ 64 - 5` bytes, returns `NULL`, and
`memset` is handed `NULL`. -/
theorem negative_size_allocation :
    option_loop [Opt.s "-5"] {} = Except.ok ⟨-1, -5, -1, false⟩ ∧
    apply_overrides ⟨-1, -5, -1, false⟩ (_IOC_DIR 0) (_IOC_SIZE 0) = (0, -5) ∧
    allocate sample_env (-1) 0 (-5) = ([Event.malloc 18446744073709551611], none) ∧
    main sample_env [Opt.s "-5"] ["/dev/null", "0"] =
      ⟨[Event.stderr "Decoded values: direction=NONE", Event.malloc 18446744073709551611],
       Status.undefined⟩ := by
  decide


/-- C9: with the signal table a map from signal numbers to default, ignored or a
handler of the user (no signal is bound to the diagnostic handler when `doit`
starts), after the install loop, the call and the restore loop every signal has the
action it had at the start, and so has the table `doit` leaves; the install loop
changes only signals whose action was the default one, binding them to the diagnostic
handler, and the restore loop changes only signals bound to the diagnostic handler,
setting them back to the default action.  This holds whichever signal numbers
`sigaction` rejects and whatever the local `oldact` holds at first. -/
theorem signal_table_restored (env : Env)
    (hinit : ∀ i, env.handlers i ≠ Handler.sighandler) :
    (∀ i, (restore_loop env (install_loop env ⟨env.handlers, env.oldact0⟩)).table i =
      env.handlers i) ∧
    (∀ file nr buf d, doit env file nr buf = Except.ok d → ∀ i, d.handlers i = env.handlers i) ∧
    (∀ i, (install_loop env ⟨env.handlers, env.oldact0⟩).table i ≠ env.handlers i →
      env.handlers i = Handler.SIG_DFL ∧
      (install_loop env ⟨env.handlers, env.oldact0⟩).table i = Handler.sighandler) ∧
    (∀ i, (restore_loop env (install_loop env ⟨env.handlers, env.oldact0⟩)).table i ≠
        (install_loop env ⟨env.handlers, env.oldact0⟩).table i →
      (install_loop env ⟨env.handlers, env.oldact0⟩).table i = Handler.sighandler ∧
      (restore_loop env (install_loop env ⟨env.handlers, env.oldact0⟩)).table i =
        Handler.SIG_DFL) := by
  have h1 : ∀ i, (install_loop env ⟨env.handlers, env.oldact0⟩).table i =
      if i < env.NSIG ∧ env.sig_valid i = true ∧ env.sig_kernel_only i = false ∧
        env.handlers i = Handler.SIG_DFL
      then Handler.sighandler else env.handlers i := by
    intro i
    unfold install_loop
    rw [install_step_eq, sig_loop_table]
  have h2 : ∀ st i, (restore_loop env st).table i =
      if i < env.NSIG ∧ env.sig_valid i = true ∧ env.sig_kernel_only i = false ∧
        st.table i = Handler.sighandler
      then Handler.SIG_DFL else st.table i := by
    intro st i
    unfold restore_loop
    rw [restore_step_eq, sig_loop_table]
  have hfinal : ∀ i, (restore_loop env (install_loop env ⟨env.handlers, env.oldact0⟩)).table i =
      env.handlers i := by
    intro i
    rw [h2, h1]
    by_cases hc : i < env.NSIG ∧ env.sig_valid i = true ∧ env.sig_kernel_only i = false ∧
        env.handlers i = Handler.SIG_DFL
    · simp [hc]
    · simp [hc, hinit i]
  refine ⟨hfinal, ?_, ?_, ?_⟩
  · intro file nr buf d hd i
    unfold doit at hd
    split at hd
    · cases hd
    · injection hd with hd
      subst hd
      exact hfinal i
  · intro i hne
    rw [h1] at hne ⊢
    by_cases hc : i < env.NSIG ∧ env.sig_valid i = true ∧ env.sig_kernel_only i = false ∧
        env.handlers i = Handler.SIG_DFL
    · simp [hc]
    · simp [hc] at hne
  · intro i hne
    rw [h2] at hne ⊢
    by_cases hc : i < env.NSIG ∧ env.sig_valid i = true ∧ env.sig_kernel_only i = false ∧
        (install_loop env ⟨env.handlers, env.oldact0⟩).table i = Handler.sighandler
    · simp [hc]
    · simp [hc] at hne

theorem signal_env_init (i : Nat) : signal_env.handlers i ≠ Handler.sighandler := by
  show (if i = 1 then Handler.SIG_IGN else if i = 2 then Handler.other 4096
    else Handler.SIG_DFL) ≠ Handler.sighandler
  split_ifs <;> simp

/-- C9, on a table with an ignored signal and a handler of the user: signal 3, at
its default action at the start, is back at it at the end. -/
theorem signal_table_restored_witness :
    (∀ i, signal_env.handlers i ≠ Handler.sighandler) ∧
    (restore_loop signal_env
        (install_loop signal_env ⟨signal_env.handlers, signal_env.oldact0⟩)).table 3 =
      signal_env.handlers 3 :=
  ⟨signal_env_init, (signal_table_restored signal_env signal_env_init).1 3⟩

end Ioctl
